import Mathlib

/-!
Consul registry adapter (`consul/consul.go`)

A shallow embedding of the adapter that turns a discovered `bridge.Service`
into Consul operations: the health-check builder `buildCheck`, the template
interpolation `interpolateService`, the two KV projections and the
`Register` / `Deregister` orchestration.

Conventions of the embedding.

* A Go `string` is a finite sequence of bytes.  It is embedded as a Lean `String`
  (a list of `Char`), one `Char` standing for one byte.  None of the embedded
  operations looks inside a character (they only concatenate, compare, slice by
  position and search), so a statement proved for all Lean strings holds in
  particular for all byte strings.
* A Go `map[string]string` is embedded as an association list; an index
  expression `m[k]` yields the zero value `""` when the key is absent.
* A Go runtime panic is an explicit error result.
* The Consul client (`consulapi.Client`) is an external collaborator.  It is
  embedded as a record of state transformers over a backend state.
-/

namespace Consul

/-- An `error` value of Go, or the payload of a panic. -/
abbrev Error := String

deriving instance DecidableEq for Except

/-! ## Data model -/

/-- Modelled from the spec: the type `bridge.ServiceOrigin` is declared in the
`bridge` package, which is not part of the sources at hand.  Section 3 of the
specification lists its seven string fields. -/
structure ServiceOrigin where
  ContainerID : String := ""
  ExposedIP : String := ""
  HostIP : String := ""
  HostPort : String := ""
  PortType : String := ""
  ContainerHostname : String := ""
  ExposedPort : String := ""

/-- Modelled from the spec: the type `bridge.Service` is declared in the
`bridge` package, which is not part of the sources at hand.  Section 3 of the
specification lists its fields.  `Attrs` is a Go map, embedded as an
association list. -/
structure Service where
  ID : String := ""
  Name : String := ""
  Port : Int := 0
  IP : String := ""
  Tags : List String := []
  Attrs : List (String × String) := []
  Origin : ServiceOrigin := {}

/-- The fields of `consulapi.AgentServiceCheck` (external library) that the
adapter touches.  `new(consulapi.AgentServiceCheck)` is the record of empty
strings. -/
structure AgentServiceCheck where
  Script : String := ""
  Interval : String := ""
  Timeout : String := ""
  TTL : String := ""
  HTTP : String := ""
deriving DecidableEq, Repr

/-- The fields of `consulapi.AgentServiceRegistration` (external library) that
the adapter fills.  `Check` is a pointer in Go: `none` is `nil`. -/
structure AgentServiceRegistration where
  ID : String := ""
  Name : String := ""
  Tags : List String := []
  Port : Int := 0
  Address : String := ""
  Check : Option AgentServiceCheck := none
deriving DecidableEq, Repr

/-- The configuration part of `ConsulAdapter`; the `client` field is passed
separately to the operations that use it. -/
structure ConsulAdapter where
  attributePrefix : String := ""
  containerPrefix : String := ""

/-- The constant `DefaultInterval`. -/
def DefaultInterval : String := "10s"

/-! ## Go primitives -/

/-- The index expression `m[k]` on a `map[string]string`: the stored value, or
the empty string when the key is absent. -/
def attr (m : List (String × String)) (k : String) : String :=
  match m.lookup k with
  | some v => v
  | none => ""

/-- The verb `%d` of `fmt.Sprintf` applied to an `int`: the decimal digits,
preceded by a minus sign for a negative number. -/
def decimal (n : Int) : String :=
  match n with
  | Int.ofNat m => String.mk (Nat.toDigits 10 m)
  | Int.negSucc m => "-" ++ String.mk (Nat.toDigits 10 (m + 1))

/-- The slice expression `s[:n]`: the first `n` bytes of `s`; a runtime panic
when `s` is shorter than `n`. -/
def sliceTo (s : String) (n : Nat) : Except Error String :=
  if n ≤ s.length then
    Except.ok (String.mk (s.data.take n))
  else
    Except.error "slice bounds out of range"

/-- The scan of `strings.Replace(s, old, new, -1)` for a non-empty `old`.
`skip` counts the bytes of a matched occurrence of `old` that are still to be
dropped.  An occurrence is looked for at the current position only once the
previous one has been consumed, hence the matches are the left-most
non-overlapping ones, as in the library. -/
def replaceScan (old new : List Char) : Nat → List Char → List Char
  | _, [] => []
  | skip + 1, _ :: cs => replaceScan old new skip cs
  | 0, c :: cs =>
    if old.isPrefixOf (c :: cs) then
      new ++ replaceScan old new (old.length - 1) cs
    else
      c :: replaceScan old new 0 cs

/-- The call `strings.Replace(s, old, new, -1)` of the Go standard library.
It returns `s` when `old` and `new` are equal.  For a non-empty `old` every
left-most non-overlapping occurrence of `old` in `s` is replaced by `new`.
For an empty `old` (which the adapter never passes) the library puts `new` in
front of every character and at the end. -/
def stringsReplaceAll (s old new : String) : String :=
  if old = new then s
  else if old = "" then String.mk (new.data ++ s.data.flatMap (fun c => c :: new.data))
  else String.mk (replaceScan old.data new.data 0 s.data)

/-- Whether `sub` occurs in `s` as a contiguous substring
(`strings.Contains(s, sub)`). -/
def stringsContains (s sub : String) : Prop :=
  sub.data <:+: s.data

/-! ## `interpolateService` and `buildCheck` -/

/-- The method `interpolateService`. -/
def interpolateService (_r : ConsulAdapter) (script : String) (service : Service) : String :=
  let withIp := stringsReplaceAll script "$SERVICE_IP" service.Origin.HostIP
  let withPort := stringsReplaceAll withIp "$SERVICE_PORT" service.Origin.HostPort
  withPort

/-- The if-chain of `buildCheck` (lines 138 to 151) that selects the variant.
`Except.ok none` is the early `return nil`; `Except.error` is the runtime
panic of the slice expression `ContainerID[:12]`. -/
def selectCheck (r : ConsulAdapter) (service : Service) : Except Error (Option AgentServiceCheck) :=
  let check : AgentServiceCheck := {}
  if attr service.Attrs "check_http" ≠ "" then
    let check := { check with
      HTTP := "http://" ++ service.IP ++ ":" ++ decimal service.Port
        ++ attr service.Attrs "check_http" }
    if attr service.Attrs "check_timeout" ≠ "" then
      Except.ok (some { check with Timeout := attr service.Attrs "check_timeout" })
    else
      Except.ok (some check)
  else if attr service.Attrs "check_cmd" ≠ "" then
    match sliceTo service.Origin.ContainerID 12 with
    | Except.error e => Except.error e
    | Except.ok id12 =>
      Except.ok (some { check with
        Script := "check-cmd " ++ id12 ++ " " ++ service.Origin.ExposedPort ++ " "
          ++ attr service.Attrs "check_cmd" })
  else if attr service.Attrs "check_script" ≠ "" then
    Except.ok (some { check with
      Script := interpolateService r (attr service.Attrs "check_script") service })
  else if attr service.Attrs "check_ttl" ≠ "" then
    Except.ok (some { check with TTL := attr service.Attrs "check_ttl" })
  else
    Except.ok none

/-- The method `buildCheck`: the variant selection followed by the interval
block (lines 152 to 158).  The result `Except.error` is a runtime panic,
`Except.ok none` is the `nil` pointer, `Except.ok (some c)` a check. -/
def buildCheck (r : ConsulAdapter) (service : Service) : Except Error (Option AgentServiceCheck) :=
  match selectCheck r service with
  | Except.error e => Except.error e
  | Except.ok none => Except.ok none
  | Except.ok (some check) =>
    if check.Script ≠ "" ∨ check.HTTP ≠ "" then
      if attr service.Attrs "check_interval" ≠ "" then
        Except.ok (some { check with Interval := attr service.Attrs "check_interval" })
      else
        Except.ok (some { check with Interval := DefaultInterval })
    else
      Except.ok (some check)

/-! ## The Consul client and the programs that call it -/

/-- The calls the adapter makes on the Consul client. -/
inductive Call where
  /-- `client.KV().Put(&KVPair{Key: key, Value: []byte(value)}, nil)` -/
  | kvPut (key value : String)
  /-- `client.KV().DeleteTree(pfx, nil)` -/
  | kvDeleteTree (pfx : String)
  /-- `client.Agent().ServiceRegister(registration)` -/
  | serviceRegister (registration : AgentServiceRegistration)
  /-- `client.Agent().ServiceDeregister(serviceID)` -/
  | serviceDeregister (serviceID : String)
deriving DecidableEq, Repr

/-- The Consul client as seen by the adapter: every call returns an error
(`none` is `nil`) and moves the backend to a new state. -/
structure Client (σ : Type) where
  call : Call → σ → Option Error × σ

/-- How a run of adapter code ends: it returns a value, or it panics; in both
cases the backend is left in some state. -/
inductive Outcome (σ α : Type) where
  | returned (value : α) (st : σ)
  | panicked (err : Error) (st : σ)

/-- The backend state in which a run ended. -/
def Outcome.state {σ α : Type} : Outcome σ α → σ
  | Outcome.returned _ st => st
  | Outcome.panicked _ st => st

/-- Adapter code that talks to a backend of state type `σ`. -/
def Prog (σ α : Type) : Type := σ → Outcome σ α

/-- Runs adapter code from a backend state. -/
def Prog.run {σ α : Type} (p : Prog σ α) (st : σ) : Outcome σ α := p st

/-- Sequencing: a panic ends the run, later statements are not executed. -/
instance instMonadProg {σ : Type} : Monad (Prog σ) where
  pure a := fun st => Outcome.returned a st
  bind m k := fun st =>
    match m st with
    | Outcome.returned a st1 => k a st1
    | Outcome.panicked e st1 => Outcome.panicked e st1

/-- The statement `panic(err)`. -/
def goPanic {σ α : Type} (err : Error) : Prog σ α := fun st => Outcome.panicked err st

/-- One call on the client. -/
def Client.invoke {σ : Type} (c : Client σ) (x : Call) : Prog σ (Option Error) :=
  fun st => Outcome.returned (c.call x st).1 (c.call x st).2

/-- A computation that may panic, run inside adapter code. -/
def liftExcept {σ α : Type} : Except Error α → Prog σ α
  | Except.ok a => pure a
  | Except.error e => goPanic e

/-- The statement `for k, v := range m { body }`; the association list fixes
one iteration order. -/
def forRange {σ : Type} (body : String → String → Prog σ Unit) :
    List (String × String) → Prog σ Unit
  | [] => pure ()
  | (k, v) :: rest => do
    body k v
    forRange body rest

/-! ## Projections, `Register`, `Deregister` -/

/-- The function `insertAttribute`. -/
def insertAttribute {σ : Type} (kv : Client σ) (key value : String) : Prog σ Unit := do
  let err ← kv.invoke (Call.kvPut key value)
  match err with
  | some e => goPanic e
  | none => pure ()

/-- The function `insertServiceAttributes`. -/
def insertServiceAttributes {σ : Type} (kv : Client σ) (r : ConsulAdapter) (service : Service) :
    Prog σ Unit :=
  forRange (fun k v => do
      let err ← kv.invoke (Call.kvPut (r.attributePrefix ++ "/" ++ service.ID ++ "/" ++ k) v)
      match err with
      | some e => goPanic e
      | none => pure ())
    service.Attrs

/-- The function `insertContainerAttributes`: seven guarded statements in
sequence. -/
def insertContainerAttributes {σ : Type} (kv : Client σ) (r : ConsulAdapter) (service : Service) :
    Prog σ Unit := do
  (if service.Origin.ContainerID ≠ "" then
    insertAttribute kv (r.containerPrefix ++ "/" ++ service.ID ++ "/ContainerID")
      service.Origin.ContainerID
   else pure ())
  (if service.Origin.ExposedIP ≠ "" then
    insertAttribute kv (r.containerPrefix ++ "/" ++ service.ID ++ "/ExposedIP")
      service.Origin.ExposedIP
   else pure ())
  (if service.Origin.HostIP ≠ "" then
    insertAttribute kv (r.containerPrefix ++ "/" ++ service.ID ++ "/HostIP")
      service.Origin.HostIP
   else pure ())
  (if service.Origin.HostPort ≠ "" then
    insertAttribute kv (r.containerPrefix ++ "/" ++ service.ID ++ "/HostPort")
      service.Origin.HostPort
   else pure ())
  (if service.Origin.PortType ≠ "" then
    insertAttribute kv (r.containerPrefix ++ "/" ++ service.ID ++ "/PortType")
      service.Origin.PortType
   else pure ())
  (if service.Origin.ContainerHostname ≠ "" then
    insertAttribute kv (r.containerPrefix ++ "/" ++ service.ID ++ "/ContainerHostname")
      service.Origin.ContainerHostname
   else pure ())
  (if service.Origin.ExposedPort ≠ "" then
    insertAttribute kv (r.containerPrefix ++ "/" ++ service.ID ++ "/ExposedPort")
      service.Origin.ExposedPort
   else pure ())

/-- The method `Register`.  The logging statement has no effect on the
backend and is left out.  The registration record is filled from plain copies
of the service fields and from `buildCheck`, which is evaluated before the
projections, as in the source. -/
def Register {σ : Type} (client : Client σ) (r : ConsulAdapter) (service : Service) :
    Prog σ (Option Error) := do
  let check ← liftExcept (buildCheck r service)
  let registration : AgentServiceRegistration :=
    { ID := service.ID, Name := service.Name, Port := service.Port, Tags := service.Tags,
      Address := service.IP, Check := check }
  (if r.attributePrefix ≠ "" then insertServiceAttributes client r service else pure ())
  (if r.containerPrefix ≠ "" then insertContainerAttributes client r service else pure ())
  client.invoke (Call.serviceRegister registration)

/-- The method `Deregister`.  The results of the two `DeleteTree` calls are
discarded, as in the source. -/
def Deregister {σ : Type} (client : Client σ) (r : ConsulAdapter) (service : Service) :
    Prog σ (Option Error) := do
  let success ← client.invoke (Call.serviceDeregister service.ID)
  (if r.attributePrefix ≠ "" then do
    let _ ← client.invoke (Call.kvDeleteTree (r.attributePrefix ++ "/" ++ service.ID))
    pure ()
   else pure ())
  (if r.containerPrefix ≠ "" then do
    let _ ← client.invoke (Call.kvDeleteTree (r.containerPrefix ++ "/" ++ service.ID))
    pure ()
   else pure ())
  return success

/-! ## A Consul backend -/

/-- The state of a Consul agent as far as the adapter can change it: the KV
store, the registered services by ID, and the calls received so far (oldest
first). -/
structure Backend where
  kv : String → Option String := fun _ => none
  services : String → Option AgentServiceRegistration := fun _ => none
  calls : List Call := []

/-- The effect of a call that succeeds.  `Put` overwrites unconditionally,
`DeleteTree` removes every key that has the given string as a prefix. -/
def Backend.apply (b : Backend) : Call → Backend
  | Call.kvPut key value =>
    { b with kv := fun k => if k = key then some value else b.kv k }
  | Call.kvDeleteTree pfx =>
    { b with kv := fun k => if pfx.data.isPrefixOf k.data then none else b.kv k }
  | Call.serviceRegister registration =>
    { b with services := fun i => if i = registration.ID then some registration else b.services i }
  | Call.serviceDeregister serviceID =>
    { b with services := fun i => if i = serviceID then none else b.services i }

/-- The backend after a call that succeeds: the call has its effect and is
recorded. -/
def Backend.record (b : Backend) (x : Call) : Backend :=
  { b.apply x with calls := b.calls ++ [x] }

/-- The backend after a sequence of calls that all succeed. -/
def Backend.recordAll (b : Backend) (xs : List Call) : Backend :=
  xs.foldl Backend.record b

/-- A Consul backend whose failures are decided by `fails`, a function of the
calls received so far and of the current call.  A failing call returns its
error and changes nothing; a succeeding call has its effect.  Every call is
recorded. -/
def Backend.client (fails : List Call → Call → Option Error) : Client Backend where
  call x b :=
    match fails b.calls x with
    | some e => (some e, { b with calls := b.calls ++ [x] })
    | none => (none, b.record x)

/-- The backend whose calls all succeed. -/
def reliable : List Call → Call → Option Error := fun _ _ => none

/-! ## The KV layout in the words of the specification -/

/-- The seven `Origin` fields with their field names, in source order. -/
def originFields (o : ServiceOrigin) : List (String × String) :=
  [("ContainerID", o.ContainerID), ("ExposedIP", o.ExposedIP), ("HostIP", o.HostIP),
   ("HostPort", o.HostPort), ("PortType", o.PortType),
   ("ContainerHostname", o.ContainerHostname), ("ExposedPort", o.ExposedPort)]

/-- The KV entries of container projection as the specification words them:
for each non-empty `Origin` field, the key
`containerPrefix + "/" + ID + "/" + FieldName` with the value of the field. -/
def containerEntries (r : ConsulAdapter) (service : Service) : List (String × String) :=
  ((originFields service.Origin).filter (fun fv => fv.2 ≠ "")).map
    (fun fv => (r.containerPrefix ++ "/" ++ service.ID ++ "/" ++ fv.1, fv.2))

/-- The KV entries of attribute projection as the specification words them:
for each pair `(k, v)` of `Attrs`, the key `attributePrefix + "/" + ID + "/" + k`
with the value `v`. -/
def attributeEntries (r : ConsulAdapter) (service : Service) : List (String × String) :=
  service.Attrs.map (fun kv => (r.attributePrefix ++ "/" ++ service.ID ++ "/" ++ kv.1, kv.2))

/-- One `Put` call per KV entry. -/
def putsOf (entries : List (String × String)) : List Call :=
  entries.map (fun kv => Call.kvPut kv.1 kv.2)

/-- The number of non-empty `Origin` fields. -/
def nonEmptyFieldCount (o : ServiceOrigin) : Nat :=
  (if o.ContainerID ≠ "" then 1 else 0) + (if o.ExposedIP ≠ "" then 1 else 0)
  + (if o.HostIP ≠ "" then 1 else 0) + (if o.HostPort ≠ "" then 1 else 0)
  + (if o.PortType ≠ "" then 1 else 0) + (if o.ContainerHostname ≠ "" then 1 else 0)
  + (if o.ExposedPort ≠ "" then 1 else 0)

/-! ## Predicates and sample inputs used in the statements -/

/-- Exactly one of the fields `HTTP`, `Script`, `TTL` of a check is non-empty. -/
def exactlyOneVariant (c : AgentServiceCheck) : Prop :=
  (c.HTTP ≠ "" ∧ c.Script = "" ∧ c.TTL = "") ∨
  (c.HTTP = "" ∧ c.Script ≠ "" ∧ c.TTL = "") ∨
  (c.HTTP = "" ∧ c.Script = "" ∧ c.TTL ≠ "")

/-- The interval that the interval block attaches: the attribute
`check_interval` when non-empty, the default otherwise. -/
def intervalOf (service : Service) : String :=
  if attr service.Attrs "check_interval" ≠ "" then attr service.Attrs "check_interval"
  else "10s"

/-- A service with an HTTP directive and a TTL directive. -/
def sampleHttp : Service :=
  { ID := "web-1", Name := "web", IP := "10.0.0.5", Port := 8080,
    Attrs := [("check_http", "/health"), ("check_ttl", "30s"), ("check_timeout", "2s")] }

/-- A service with a command directive and a container ID of 16 characters. -/
def sampleCmd : Service :=
  { ID := "web-1", Name := "web", IP := "10.0.0.5", Port := 8080,
    Attrs := [("check_cmd", "true")],
    Origin := { ContainerID := "0123456789abcdef", ExposedPort := "80" } }

/-- A service with a command directive and a container ID of 3 characters. -/
def sampleCmdShortID : Service :=
  { ID := "web-1", Name := "web", IP := "10.0.0.5", Port := 8080,
    Attrs := [("check_cmd", "true")],
    Origin := { ContainerID := "abc", ExposedPort := "80" } }

/-- A service with a script directive. -/
def sampleScript : Service :=
  { ID := "web-1", Name := "web", IP := "10.0.0.5", Port := 8080,
    Attrs := [("check_script", "ping $SERVICE_IP:$SERVICE_PORT"), ("check_interval", "5s")],
    Origin := { HostIP := "10.0.0.5", HostPort := "8080" } }

/-- A service whose script directive is the bare token `$SERVICE_IP` and whose
`Origin.HostIP` is empty: the interpolated script is empty. -/
def sampleEmptyScript : Service :=
  { ID := "web-1", Name := "web", IP := "10.0.0.5", Port := 8080,
    Attrs := [("check_script", "$SERVICE_IP")],
    Origin := { HostIP := "", HostPort := "8080" } }

/-- A service with a TTL directive, an interval and a timeout. -/
def sampleTtl : Service :=
  { ID := "web-1", Name := "web", IP := "10.0.0.5", Port := 8080,
    Attrs := [("check_ttl", "30s"), ("check_interval", "5s"), ("check_timeout", "2s")] }

/-- The value a run returned, if it did not panic. -/
def Outcome.value? {σ α : Type} : Outcome σ α → Option α
  | Outcome.returned a _ => some a
  | Outcome.panicked _ _ => none

/-- Whether a succeeding call can change the value stored at `key`: a put at
that key, or a tree deletion at one of its prefixes. -/
def Call.touches (key : String) : Call → Prop
  | Call.kvPut k _ => k = key
  | Call.kvDeleteTree pfx => pfx.data.isPrefixOf key.data = true
  | Call.serviceRegister _ => False
  | Call.serviceDeregister _ => False

/-- A service with three non-empty `Origin` fields and two attributes. -/
def sampleOrigin : Service :=
  { ID := "web-1", Name := "web", IP := "10.0.0.5", Port := 8080,
    Attrs := [("region", "eu"), ("tier", "front")],
    Origin := { ContainerID := "0123456789abcdef", HostIP := "10.0.0.5", HostPort := "8080" } }

/-- A service with an attribute named like an `Origin` field. -/
def sampleClash : Service :=
  { ID := "web-1", Name := "web", IP := "10.0.0.5", Port := 8080,
    Attrs := [("HostIP", "172.17.0.2")],
    Origin := { HostIP := "10.0.0.5" } }

/-- A service with an attribute whose name contains a slash. -/
def sampleNestedClash : Service :=
  { ID := "web-1", Name := "web", IP := "10.0.0.5", Port := 8080,
    Attrs := [("web-1/HostIP", "172.17.0.2")],
    Origin := { HostIP := "10.0.0.5" } }

/-- The letters of the tokens `$SERVICE_IP` and `$SERVICE_PORT` after the
dollar sign. -/
def tokenLetters : List Char := ['S', 'E', 'R', 'V', 'I', 'C', '_', 'P', 'O', 'T']

/-- A substituted value that cannot take part in an occurrence of a token: it
is non-empty, holds no dollar sign and does not start with a token letter
(a dotted address or a decimal port, for instance). -/
def tokenFree (v : String) : Prop :=
  '$' ∉ v.data ∧ ∃ c rest, v.data = c :: rest ∧ c ∉ tokenLetters

/-- A service whose `Origin.HostIP` is empty. -/
def sampleNoHostIP : Service :=
  { ID := "web-1", Origin := { HostIP := "", HostPort := "8080" } }

/-- A service whose `Origin.HostIP` starts with token letters. -/
def sampleOddHostIP : Service :=
  { ID := "web-1", Origin := { HostIP := "_IP", HostPort := "8080" } }

/-- The backend after one call on `Backend.client fails`: the call is
recorded, and has its effect unless it fails. -/
def Backend.step (fails : List Call → Call → Option Error) (b : Backend) (x : Call) : Backend :=
  ((Backend.client fails).call x b).2

/-- The tree deletions of `Deregister`, one per enabled prefix, in source
order. -/
def deregisterDeletes (r : ConsulAdapter) (service : Service) : List Call :=
  (if r.attributePrefix ≠ "" then [Call.kvDeleteTree (r.attributePrefix ++ "/" ++ service.ID)]
    else [])
  ++ (if r.containerPrefix ≠ "" then [Call.kvDeleteTree (r.containerPrefix ++ "/" ++ service.ID)]
    else [])

/-- A backend state with entries of two services and one registration. -/
def sampleBackend : Backend :=
  { kv := fun k =>
      if k = "attrs/web-1/region" then some "eu"
      else if k = "containers/web-1/HostIP" then some "10.0.0.5"
      else if k = "attrs/db-1/region" then some "us"
      else none,
    services := fun i => if i = "web-1" then some { ID := "web-1", Name := "web" } else none,
    calls := [] }

/-- A backend on which the put issued after `n` earlier calls fails, and every
other call succeeds. -/
def putFailsAfter (n : Nat) : List Call → Call → Option Error
  | h, Call.kvPut _ _ => if h.length = n then some "kv unreachable" else none
  | _, _ => none

/-- A backend on which every tree deletion fails and every other call
succeeds. -/
def deleteFails : List Call → Call → Option Error
  | _, Call.kvDeleteTree _ => some "kv unreachable"
  | _, _ => none

/-- An adapter configuration with both prefixes set. -/
def sampleAdapter : ConsulAdapter :=
  { attributePrefix := "attrs", containerPrefix := "containers" }

/-- The KV entries `Register` is to put, in source order: the attribute
entries when `attributePrefix` is set, then the container entries when
`containerPrefix` is set. -/
def registerEntries (r : ConsulAdapter) (service : Service) : List (String × String) :=
  (if r.attributePrefix ≠ "" then attributeEntries r service else [])
  ++ (if r.containerPrefix ≠ "" then containerEntries r service else [])

/-- The registration record that `Register` builds around a check. -/
def registrationOf (service : Service) (check : Option AgentServiceCheck) :
    AgentServiceRegistration :=
  { ID := service.ID, Name := service.Name, Port := service.Port, Tags := service.Tags,
    Address := service.IP, Check := check }

/-- Calls issued one after the other on `Backend.client fails` until one
fails: the backend reached, and the error of the failing call if any. -/
def Backend.attempt (fails : List Call → Call → Option Error) :
    Backend → List Call → Backend × Option Error
  | b, [] => (b, none)
  | b, x :: xs =>
    match fails b.calls x with
    | some e => (b.step fails x, some e)
    | none => Backend.attempt fails (b.step fails x) xs

/-- The outcome of code that panics with the error of a failed attempt. -/
def outcomeOf (res : Backend × Option Error) : Outcome Backend Unit :=
  match res.2 with
  | none => Outcome.returned () res.1
  | some e => Outcome.panicked e res.1

/-- Every put of the entries, issued after the puts before it, succeeds on the
backend: projection does not fail. -/
def putsSucceed (fails : List Call → Call → Option Error) (b : Backend)
    (entries : List (String × String)) : Prop :=
  ∀ p1 y p2, entries = p1 ++ y :: p2 → fails (b.calls ++ putsOf p1) (Call.kvPut y.1 y.2) = none

/-- Neither of the paths `x + "/"` and `y + "/"` is a prefix of the other. -/
def pathApart (x y : String) : Prop :=
  (x ++ "/").data.isPrefixOf (y ++ "/").data = false ∧
  (y ++ "/").data.isPrefixOf (x ++ "/").data = false

/-- The two KV namespaces of a configuration cannot overlap: one of the
prefixes is empty (its projection is disabled), or they are equal, or neither
of `attributePrefix + "/"` and `containerPrefix + "/"` is a prefix of the
other. -/
def prefixesApart (r : ConsulAdapter) : Prop :=
  r.attributePrefix = "" ∨ r.containerPrefix = "" ∨ r.attributePrefix = r.containerPrefix ∨
  pathApart r.attributePrefix r.containerPrefix

/-- The keys of the KV entries `Register` is to put. -/
def registerKeys (r : ConsulAdapter) (service : Service) : List String :=
  (registerEntries r service).map Prod.fst

/-- The backend after `Register` for a first service and then for a second
one, on the backend whose calls all succeed. -/
def afterBoth (r : ConsulAdapter) (first second : Service) (b : Backend) : Backend :=
  ((Register (Backend.client reliable) r second).run
    ((Register (Backend.client reliable) r first).run b).state).state

/-- Two services whose IDs are `a` and `a/b`. -/
def sampleSlashA : Service := { ID := "a", Attrs := [("b/c", "1")] }

/-- The companion of `sampleSlashA`. -/
def sampleSlashB : Service := { ID := "a/b", Attrs := [("c", "2")] }

/-- A service with ID `a` and an attribute whose name contains a slash. -/
def sampleNestA : Service := { ID := "a", Attrs := [("b/HostIP", "1")] }

/-- A service with ID `b` and a host address. -/
def sampleNestB : Service := { ID := "b", Origin := { HostIP := "10.0.0.5" } }

/-- A configuration whose container prefix lies under the attribute prefix. -/
def sampleNestedAdapter : ConsulAdapter := { attributePrefix := "p", containerPrefix := "p/a" }

/-- A service whose ID is a prefix of the ID `web-1` of `sampleOrigin`. -/
def sampleShortID : Service := { ID := "web", Name := "web" }

/-- The calls of a complete `Register`: the puts of the enabled projections,
then the registration. -/
def registerCalls (r : ConsulAdapter) (service : Service) (check : Option AgentServiceCheck) :
    List Call :=
  putsOf (registerEntries r service) ++ [Call.serviceRegister (registrationOf service check)]

/-- The deletion prefix built from the ID `a` cannot reach the keys built from
the ID `b`: `a` is not a prefix of `b + "/"` and `b + "/"` is not a prefix of
`a`. -/
def deleteApart (a b : String) : Prop :=
  a.data.isPrefixOf (b ++ "/").data = false ∧ (b ++ "/").data.isPrefixOf a.data = false

/-- A second service, with attributes and container fields of its own. -/
def sampleDb : Service :=
  { ID := "db-1", Name := "db", IP := "10.0.0.9", Port := 5432,
    Attrs := [("region", "us")],
    Origin := { HostIP := "10.0.0.9", HostPort := "5432" } }

end Consul

namespace Consul

/-! ## Facts about strings -/

theorem append_ne_empty_of_left (a b : String) (h : a ≠ "") : a ++ b ≠ "" := by
  intro hab
  apply h
  have h1 : (a ++ b).data = ("" : String).data := by rw [hab]
  have h2 : a.data = [] := by
    simp only [String.data_append] at h1
    exact (List.append_eq_nil.mp h1).1
  exact String.ext h2

theorem http_url_ne_empty (ip port path : String) :
    "http://" ++ ip ++ ":" ++ port ++ path ≠ "" := by
  repeat apply append_ne_empty_of_left
  decide

theorem cmd_script_ne_empty (id12 port cmd : String) :
    "check-cmd " ++ id12 ++ " " ++ port ++ " " ++ cmd ≠ "" := by
  repeat apply append_ne_empty_of_left
  decide

/-! ## `buildCheck` -/

/-- The HTTP variant, in full. -/
theorem buildCheck_of_http (r : ConsulAdapter) (s : Service)
    (h : attr s.Attrs "check_http" ≠ "") :
    buildCheck r s = Except.ok (some
      { HTTP := "http://" ++ s.IP ++ ":" ++ decimal s.Port ++ attr s.Attrs "check_http",
        Timeout := attr s.Attrs "check_timeout",
        Interval := intervalOf s }) := by
  have hu := http_url_ne_empty s.IP (decimal s.Port) (attr s.Attrs "check_http")
  unfold buildCheck selectCheck intervalOf DefaultInterval
  by_cases ht : attr s.Attrs "check_timeout" = "" <;>
    by_cases hi : attr s.Attrs "check_interval" = "" <;>
    simp [h, ht, hi, hu]

/-- The command variant, in full: a panic for a short container ID, a script
check with the interval attached otherwise. -/
theorem buildCheck_of_cmd (r : ConsulAdapter) (s : Service)
    (hh : attr s.Attrs "check_http" = "") (hc : attr s.Attrs "check_cmd" ≠ "") :
    buildCheck r s =
      if 12 ≤ s.Origin.ContainerID.length then
        Except.ok (some
          { Script := "check-cmd " ++ String.mk (s.Origin.ContainerID.data.take 12) ++ " "
              ++ s.Origin.ExposedPort ++ " " ++ attr s.Attrs "check_cmd",
            Interval := intervalOf s })
      else Except.error "slice bounds out of range" := by
  have hu := cmd_script_ne_empty (String.mk (s.Origin.ContainerID.data.take 12))
    s.Origin.ExposedPort (attr s.Attrs "check_cmd")
  unfold buildCheck selectCheck sliceTo intervalOf DefaultInterval
  by_cases hl : 12 ≤ s.Origin.ContainerID.length <;>
    by_cases hi : attr s.Attrs "check_interval" = "" <;>
    simp [hh, hc, hl, hi, hu]

/-- The script-template variant, in full: the interval is attached only when
the interpolated script is non-empty. -/
theorem buildCheck_of_script (r : ConsulAdapter) (s : Service)
    (hh : attr s.Attrs "check_http" = "") (hc : attr s.Attrs "check_cmd" = "")
    (hs : attr s.Attrs "check_script" ≠ "") :
    buildCheck r s =
      if interpolateService r (attr s.Attrs "check_script") s ≠ "" then
        Except.ok (some
          { Script := interpolateService r (attr s.Attrs "check_script") s,
            Interval := intervalOf s })
      else Except.ok (some {}) := by
  unfold buildCheck selectCheck intervalOf DefaultInterval
  by_cases hl : interpolateService r (attr s.Attrs "check_script") s = "" <;>
    by_cases hi : attr s.Attrs "check_interval" = "" <;>
    simp [hh, hc, hs, hl, hi]

/-- The TTL variant, in full. -/
theorem buildCheck_of_ttl (r : ConsulAdapter) (s : Service)
    (hh : attr s.Attrs "check_http" = "") (hc : attr s.Attrs "check_cmd" = "")
    (hs : attr s.Attrs "check_script" = "") (ht : attr s.Attrs "check_ttl" ≠ "") :
    buildCheck r s = Except.ok (some { TTL := attr s.Attrs "check_ttl" }) := by
  unfold buildCheck selectCheck
  simp [hh, hc, hs, ht]

/-- No directive at all: the `nil` check. -/
theorem buildCheck_of_none (r : ConsulAdapter) (s : Service)
    (hh : attr s.Attrs "check_http" = "") (hc : attr s.Attrs "check_cmd" = "")
    (hs : attr s.Attrs "check_script" = "") (ht : attr s.Attrs "check_ttl" = "") :
    buildCheck r s = Except.ok none := by
  unfold buildCheck selectCheck
  simp [hh, hc, hs, ht]

/-! ## Claims about `buildCheck` -/

/-- Claim C1: for every service whose `check_http` attribute is a non-empty
path, `buildCheck` returns a check whose `HTTP` is
`"http://" + IP + ":" + decimal(Port) + path`, whose `Script` and `TTL` are
empty and whose `Timeout` is the `check_timeout` attribute (empty when
absent), whatever the other attributes are. -/
theorem buildCheck_http_variant (r : ConsulAdapter) (s : Service)
    (h : attr s.Attrs "check_http" ≠ "") :
    ∃ c, buildCheck r s = Except.ok (some c) ∧
      c.HTTP = "http://" ++ s.IP ++ ":" ++ decimal s.Port ++ attr s.Attrs "check_http" ∧
      c.Script = "" ∧ c.TTL = "" ∧ c.Timeout = attr s.Attrs "check_timeout" :=
  ⟨_, buildCheck_of_http r s h, rfl, rfl, rfl, rfl⟩

/-- Witness of claim C1 at the service with `check_http = "/health"` and
`check_ttl = "30s"`: the HTTP variant is returned and `TTL` is empty. -/
theorem buildCheck_http_variant_witness :
    attr sampleHttp.Attrs "check_http" ≠ "" ∧ attr sampleHttp.Attrs "check_ttl" = "30s" ∧
    ∃ c, buildCheck {} sampleHttp = Except.ok (some c) ∧
      c.HTTP = "http://" ++ sampleHttp.IP ++ ":" ++ decimal sampleHttp.Port
        ++ attr sampleHttp.Attrs "check_http" ∧
      c.Script = "" ∧ c.TTL = "" ∧ c.Timeout = attr sampleHttp.Attrs "check_timeout" :=
  ⟨by decide, by decide, buildCheck_http_variant {} sampleHttp (by decide)⟩

/-- Counterexample to claim C2: for the script directive `$SERVICE_IP` with an
empty `Origin.HostIP`, `buildCheck` returns a check whose `HTTP`, `Script` and
`TTL` are all empty, so not exactly one of them is non-empty. -/
theorem buildCheck_exactly_one_counterexample :
    buildCheck {} sampleEmptyScript =
      Except.ok (some { Script := "", Interval := "", Timeout := "", TTL := "", HTTP := "" }) ∧
    ¬ exactlyOneVariant { Script := "", Interval := "", Timeout := "", TTL := "", HTTP := "" } := by
  refine ⟨by decide, ?_⟩
  unfold exactlyOneVariant
  simp

/-- Claim C2, amended: for every service for which `buildCheck` returns a
check, never two of `HTTP`, `Script`, `TTL` are non-empty, and exactly one of
them is non-empty unless the script-template variant was selected and the
interpolated script is empty, in which case all three are empty. -/
theorem buildCheck_at_most_one_variant (r : ConsulAdapter) (s : Service) (c : AgentServiceCheck)
    (h : buildCheck r s = Except.ok (some c)) :
    exactlyOneVariant c ∨
    (c.HTTP = "" ∧ c.Script = "" ∧ c.TTL = "" ∧
      attr s.Attrs "check_http" = "" ∧ attr s.Attrs "check_cmd" = "" ∧
      attr s.Attrs "check_script" ≠ "" ∧
      interpolateService r (attr s.Attrs "check_script") s = "") := by
  by_cases hh : attr s.Attrs "check_http" = ""
  · by_cases hc : attr s.Attrs "check_cmd" = ""
    · by_cases hs : attr s.Attrs "check_script" = ""
      · by_cases ht : attr s.Attrs "check_ttl" = ""
        · rw [buildCheck_of_none r s hh hc hs ht] at h
          cases h
        · rw [buildCheck_of_ttl r s hh hc hs ht] at h
          cases h
          exact Or.inl (Or.inr (Or.inr ⟨rfl, rfl, ht⟩))
      · rw [buildCheck_of_script r s hh hc hs] at h
        by_cases he : interpolateService r (attr s.Attrs "check_script") s = ""
        · rw [if_neg (not_not.mpr he)] at h
          cases h
          exact Or.inr ⟨rfl, rfl, rfl, hh, hc, hs, he⟩
        · rw [if_pos he] at h
          cases h
          exact Or.inl (Or.inr (Or.inl ⟨rfl, he, rfl⟩))
    · rw [buildCheck_of_cmd r s hh hc] at h
      by_cases hl : 12 ≤ s.Origin.ContainerID.length
      · rw [if_pos hl] at h
        cases h
        exact Or.inl (Or.inr (Or.inl ⟨rfl, cmd_script_ne_empty _ _ _, rfl⟩))
      · rw [if_neg hl] at h
        cases h
  · rw [buildCheck_of_http r s hh] at h
    cases h
    exact Or.inl (Or.inl ⟨http_url_ne_empty _ _ _, rfl, rfl⟩)

/-- Witness of the amended claim C2 at a service with a script directive. -/
theorem buildCheck_at_most_one_variant_witness :
    buildCheck {} sampleScript
      = Except.ok (some { Script := "ping 10.0.0.5:8080", Interval := "5s" }) ∧
    (exactlyOneVariant { Script := "ping 10.0.0.5:8080", Interval := "5s" } ∨
    (({ Script := "ping 10.0.0.5:8080", Interval := "5s" } : AgentServiceCheck).HTTP = "" ∧
      ({ Script := "ping 10.0.0.5:8080", Interval := "5s" } : AgentServiceCheck).Script = "" ∧
      ({ Script := "ping 10.0.0.5:8080", Interval := "5s" } : AgentServiceCheck).TTL = "" ∧
      attr sampleScript.Attrs "check_http" = "" ∧ attr sampleScript.Attrs "check_cmd" = "" ∧
      attr sampleScript.Attrs "check_script" ≠ "" ∧
      interpolateService {} (attr sampleScript.Attrs "check_script") sampleScript = "")) :=
  ⟨by decide, buildCheck_at_most_one_variant {} sampleScript _ (by decide)⟩

/-- Claim C3 at its failing input: with `check_cmd = "true"` and the
three-character container ID `"abc"`, the slice `ContainerID[:12]` panics and
`buildCheck` returns no check. -/
theorem buildCheck_cmd_short_id_panics :
    attr sampleCmdShortID.Attrs "check_http" = "" ∧
    attr sampleCmdShortID.Attrs "check_cmd" ≠ "" ∧
    sampleCmdShortID.Origin.ContainerID = "abc" ∧
    buildCheck {} sampleCmdShortID = Except.error "slice bounds out of range" := by
  decide

/-- Counterexample to claim C4: with `check_cmd = "true"`, no `check_http` and
no `check_interval`, the returned script check has `Interval = "10s"`, not the
empty string. -/
theorem buildCheck_cmd_interval_counterexample :
    attr sampleCmd.Attrs "check_http" = "" ∧
    attr sampleCmd.Attrs "check_cmd" ≠ "" ∧
    attr sampleCmd.Attrs "check_interval" = "" ∧
    buildCheck {} sampleCmd =
      Except.ok (some { Script := "check-cmd 0123456789ab 80 true", Interval := "10s",
                        Timeout := "", TTL := "", HTTP := "" }) := by
  decide

/-- Claim C4, amended: for every service for which the command variant is
selected and whose container ID has at least 12 characters, `buildCheck`
returns the script check with the interval treatment applied: `Interval` is
the `check_interval` attribute when that is non-empty and `"10s"` otherwise. -/
theorem buildCheck_cmd_interval (r : ConsulAdapter) (s : Service)
    (hh : attr s.Attrs "check_http" = "") (hc : attr s.Attrs "check_cmd" ≠ "")
    (hl : 12 ≤ s.Origin.ContainerID.length) :
    ∃ c, buildCheck r s = Except.ok (some c) ∧
      c.Script = "check-cmd " ++ String.mk (s.Origin.ContainerID.data.take 12) ++ " "
        ++ s.Origin.ExposedPort ++ " " ++ attr s.Attrs "check_cmd" ∧
      c.Interval =
        (if attr s.Attrs "check_interval" ≠ "" then attr s.Attrs "check_interval" else "10s") := by
  refine ⟨{ Script := "check-cmd " ++ String.mk (s.Origin.ContainerID.data.take 12) ++ " "
              ++ s.Origin.ExposedPort ++ " " ++ attr s.Attrs "check_cmd",
            Interval := intervalOf s }, ?_, rfl, rfl⟩
  rw [buildCheck_of_cmd r s hh hc, if_pos hl]

/-- Witness of the amended claim C4. -/
theorem buildCheck_cmd_interval_witness :
    ∃ c, buildCheck {} sampleCmd = Except.ok (some c) ∧
      c.Script = "check-cmd " ++ String.mk (sampleCmd.Origin.ContainerID.data.take 12) ++ " "
        ++ sampleCmd.Origin.ExposedPort ++ " " ++ attr sampleCmd.Attrs "check_cmd" ∧
      c.Interval =
        (if attr sampleCmd.Attrs "check_interval" ≠ ""
          then attr sampleCmd.Attrs "check_interval" else "10s") :=
  buildCheck_cmd_interval {} sampleCmd (by decide) (by decide) (by decide)

/-- Counterexample to claim C5: the script-template variant is selected, no
`check_interval` is present, and the returned check has an empty `Interval`,
not `"10s"`. -/
theorem buildCheck_script_interval_counterexample :
    attr sampleEmptyScript.Attrs "check_http" = "" ∧
    attr sampleEmptyScript.Attrs "check_cmd" = "" ∧
    attr sampleEmptyScript.Attrs "check_script" ≠ "" ∧
    attr sampleEmptyScript.Attrs "check_interval" = "" ∧
    ∃ c, buildCheck {} sampleEmptyScript = Except.ok (some c) ∧ c.Interval = "" ∧
      c.Interval ≠ "10s" := by
  refine ⟨by decide, by decide, by decide, by decide, {}, by decide, by decide, by decide⟩

/-- Claim C5, amended: for every service for which the HTTP variant is
selected, or the script-template variant is selected and the interpolated
script is non-empty, the returned check has `Interval` equal to the
`check_interval` attribute when that is non-empty and to `"10s"` otherwise. -/
theorem buildCheck_interval (r : ConsulAdapter) (s : Service)
    (h : attr s.Attrs "check_http" ≠ "" ∨
      (attr s.Attrs "check_http" = "" ∧ attr s.Attrs "check_cmd" = "" ∧
        attr s.Attrs "check_script" ≠ "" ∧
        interpolateService r (attr s.Attrs "check_script") s ≠ "")) :
    ∃ c, buildCheck r s = Except.ok (some c) ∧
      c.Interval =
        (if attr s.Attrs "check_interval" ≠ "" then attr s.Attrs "check_interval" else "10s") ∧
      DefaultInterval = "10s" := by
  rcases h with h | ⟨hh, hc, hs, he⟩
  · exact ⟨_, buildCheck_of_http r s h, rfl, rfl⟩
  · refine ⟨{ Script := interpolateService r (attr s.Attrs "check_script") s,
              Interval := intervalOf s }, ?_, rfl, rfl⟩
    rw [buildCheck_of_script r s hh hc hs, if_pos he]

/-- Witness of the amended claim C5 at a service with a script directive. -/
theorem buildCheck_interval_witness :
    ∃ c, buildCheck {} sampleScript = Except.ok (some c) ∧
      c.Interval =
        (if attr sampleScript.Attrs "check_interval" ≠ ""
          then attr sampleScript.Attrs "check_interval" else "10s") ∧
      DefaultInterval = "10s" :=
  buildCheck_interval {} sampleScript
    (Or.inr ⟨by decide, by decide, by decide, by decide⟩)

/-- Claim C6: for every service whose `check_http`, `check_cmd` and
`check_script` are absent or empty and whose `check_ttl` is non-empty,
`buildCheck` returns a check whose `TTL` is the `check_ttl` string and whose
`Interval`, `HTTP`, `Script` and `Timeout` are empty, whatever
`check_interval` and `check_timeout` are. -/
theorem buildCheck_ttl_variant (r : ConsulAdapter) (s : Service)
    (hh : attr s.Attrs "check_http" = "") (hc : attr s.Attrs "check_cmd" = "")
    (hs : attr s.Attrs "check_script" = "") (ht : attr s.Attrs "check_ttl" ≠ "") :
    ∃ c, buildCheck r s = Except.ok (some c) ∧
      c.TTL = attr s.Attrs "check_ttl" ∧
      c.Interval = "" ∧ c.HTTP = "" ∧ c.Script = "" ∧ c.Timeout = "" :=
  ⟨_, buildCheck_of_ttl r s hh hc hs ht, rfl, rfl, rfl, rfl, rfl⟩

/-- Witness of claim C6 at a service that also carries `check_interval` and
`check_timeout`. -/
theorem buildCheck_ttl_variant_witness :
    attr sampleTtl.Attrs "check_interval" = "5s" ∧ attr sampleTtl.Attrs "check_timeout" = "2s" ∧
    ∃ c, buildCheck {} sampleTtl = Except.ok (some c) ∧
      c.TTL = attr sampleTtl.Attrs "check_ttl" ∧
      c.Interval = "" ∧ c.HTTP = "" ∧ c.Script = "" ∧ c.Timeout = "" :=
  ⟨by decide, by decide,
    buildCheck_ttl_variant {} sampleTtl (by decide) (by decide) (by decide) (by decide)⟩

/-- Claim C7: for every service, `buildCheck` returns the `nil` check if and
only if each of `check_http`, `check_cmd`, `check_script` and `check_ttl` is
absent or empty; no other attribute takes part in the decision. -/
theorem buildCheck_none_iff (r : ConsulAdapter) (s : Service) :
    buildCheck r s = Except.ok none ↔
      (attr s.Attrs "check_http" = "" ∧ attr s.Attrs "check_cmd" = "" ∧
        attr s.Attrs "check_script" = "" ∧ attr s.Attrs "check_ttl" = "") := by
  constructor
  · intro h
    by_cases hh : attr s.Attrs "check_http" = ""
    · by_cases hc : attr s.Attrs "check_cmd" = ""
      · by_cases hs : attr s.Attrs "check_script" = ""
        · by_cases ht : attr s.Attrs "check_ttl" = ""
          · exact ⟨hh, hc, hs, ht⟩
          · rw [buildCheck_of_ttl r s hh hc hs ht] at h
            cases h
        · rw [buildCheck_of_script r s hh hc hs] at h
          split at h <;> cases h
      · rw [buildCheck_of_cmd r s hh hc] at h
        split at h <;> cases h
    · rw [buildCheck_of_http r s hh] at h
      cases h
  · rintro ⟨hh, hc, hs, ht⟩
    exact buildCheck_of_none r s hh hc hs ht

/-! ## `strings.Replace` and `interpolateService` -/

/-- A list that avoids the first character of `new` and is a prefix of the
output of the scan is a prefix of the input. -/
theorem prefix_of_prefix_replaceScan (old ns : List Char) (n : Char) :
    ∀ (q : List Char), n ∉ q → ∀ (s : List Char),
      q <+: replaceScan old (n :: ns) 0 s → q <+: s := by
  intro q
  induction q with
  | nil => intro _ s _; exact List.nil_prefix
  | cons x q ih =>
    intro hn s h
    have hx : n ≠ x := fun e => hn (e ▸ List.mem_cons_self _ _)
    have hq : n ∉ q := fun e => hn (List.mem_cons_of_mem _ e)
    cases s with
    | nil =>
      simp [replaceScan] at h
    | cons c cs =>
      by_cases hp : old.isPrefixOf (c :: cs) = true
      · rw [replaceScan, if_pos hp, List.cons_append, List.cons_prefix_cons] at h
        exact absurd h.1.symm hx
      · rw [replaceScan, if_neg hp, List.cons_prefix_cons] at h
        exact List.cons_prefix_cons.mpr ⟨h.1, ih hq cs h.2⟩

/-- An occurrence of `d :: u` in `new ++ rest` either starts inside `new`, so
that `d` is a character of `new`, or lies in `rest`. -/
theorem infix_append_cases (d : Char) (u rest : List Char) :
    ∀ (new : List Char), d :: u <:+: new ++ rest → d ∈ new ∨ d :: u <:+: rest := by
  intro new
  induction new with
  | nil => intro h; exact Or.inr h
  | cons n ns ih =>
    intro h
    rw [List.cons_append, List.infix_cons_iff] at h
    rcases h with h | h
    · exact Or.inl (by rw [(List.cons_prefix_cons.mp h).1]; exact List.mem_cons_self _ _)
    · rcases ih h with h1 | h1
      · exact Or.inl (List.mem_cons_of_mem _ h1)
      · exact Or.inr h1

/-- The scan creates no occurrence of a pattern `d :: u` when the replacement
holds no `d` and starts with a character that is not in `u`: the output has no
occurrence if the pattern is the replaced one, or if the input had none. -/
theorem no_infix_replaceScan (old ns u : List Char) (n d : Char)
    (hd : d ∉ n :: ns) (hn : n ∉ u) :
    ∀ (s : List Char) (k : Nat), (d :: u = old ∨ ¬ d :: u <:+: s) →
      ¬ d :: u <:+: replaceScan old (n :: ns) k s := by
  intro s
  induction s with
  | nil =>
    intro k _ h
    cases k <;> simp [replaceScan] at h
  | cons c cs ih =>
    intro k hyp
    have hyp1 : d :: u = old ∨ ¬ d :: u <:+: cs := by
      rcases hyp with h | h
      · exact Or.inl h
      · exact Or.inr (fun h1 => h (List.infix_cons_iff.mpr (Or.inr h1)))
    cases k with
    | succ k => simpa [replaceScan] using ih k hyp1
    | zero =>
      by_cases hp : old.isPrefixOf (c :: cs) = true
      · rw [replaceScan, if_pos hp]
        intro h
        rcases infix_append_cases d u _ _ h with h1 | h1
        · exact hd h1
        · exact ih _ hyp1 h1
      · rw [replaceScan, if_neg hp]
        intro h
        rcases List.infix_cons_iff.mp h with h1 | h1
        · have h2 := List.cons_prefix_cons.mp h1
          have h3 : u <+: cs := prefix_of_prefix_replaceScan old ns n u hn cs h2.2
          have h4 : d :: u <+: c :: cs := List.cons_prefix_cons.mpr ⟨h2.1, h3⟩
          rcases hyp with e | e
          · exact hp (by rw [← e]; exact List.isPrefixOf_iff_prefix.mpr h4)
          · exact e h4.isInfix
        · exact ih 0 hyp1 h1

/-- The replacement of a token `"$" ++ u` by a token-free value, on the
character lists. -/
theorem stringsReplaceAll_data (s v : String) (old : List Char)
    (hne : String.mk old ≠ v) (hold : String.mk old ≠ "") :
    (stringsReplaceAll s (String.mk old) v).data = replaceScan old v.data 0 s.data := by
  unfold stringsReplaceAll
  rw [if_neg hne, if_neg hold]

/-- A token differs from a value that holds no dollar sign. -/
theorem token_ne_of_no_dollar (u : List Char) (v : String) (h : '$' ∉ v.data) :
    String.mk ('$' :: u) ≠ v := by
  intro e
  apply h
  rw [← e]
  exact List.mem_cons_self _ _

theorem token_ne_empty (u : List Char) : String.mk ('$' :: u) ≠ "" := by
  intro e
  have h := congrArg String.data e
  simp at h

/-- Replacing a token by a token-free value leaves no occurrence of a pattern
`"$" ++ u` made of token letters, when the pattern is the token itself or did
not occur before. -/
theorem no_token_after_replace (s v : String) (old u : List Char)
    (hu : ∀ c ∈ u, c ∈ tokenLetters) (hv : tokenFree v)
    (hyp : '$' :: u = '$' :: old ∨ ¬ '$' :: u <:+: s.data) :
    ¬ '$' :: u <:+: (stringsReplaceAll s (String.mk ('$' :: old)) v).data := by
  obtain ⟨hd, c, rest, hc, hcl⟩ := hv
  rw [stringsReplaceAll_data s v _ (token_ne_of_no_dollar old v hd) (token_ne_empty old), hc]
  apply no_infix_replaceScan
  · rw [← hc]; exact hd
  · exact fun h => hcl (hu c h)
  · exact hyp

/-- Counterexample to claim C8: with an empty `Origin.HostIP` (which holds no
dollar sign) the script `$SERVICE$SERVICE_IP_IP` interpolates to
`$SERVICE_IP`, and with `Origin.HostIP = "_IP"` so does the script
`$SERVICE$SERVICE_IP`: the output contains the token. -/
theorem interpolateService_counterexample :
    '$' ∉ sampleNoHostIP.Origin.HostIP.data ∧ '$' ∉ sampleNoHostIP.Origin.HostPort.data ∧
    interpolateService {} "$SERVICE$SERVICE_IP_IP" sampleNoHostIP = "$SERVICE_IP" ∧
    stringsContains (interpolateService {} "$SERVICE$SERVICE_IP_IP" sampleNoHostIP)
      "$SERVICE_IP" ∧
    '$' ∉ sampleOddHostIP.Origin.HostIP.data ∧ '$' ∉ sampleOddHostIP.Origin.HostPort.data ∧
    interpolateService {} "$SERVICE$SERVICE_IP" sampleOddHostIP = "$SERVICE_IP" ∧
    stringsContains (interpolateService {} "$SERVICE$SERVICE_IP" sampleOddHostIP)
      "$SERVICE_IP" := by
  have e1 : interpolateService {} "$SERVICE$SERVICE_IP_IP" sampleNoHostIP = "$SERVICE_IP" := by
    decide
  have e2 : interpolateService {} "$SERVICE$SERVICE_IP" sampleOddHostIP = "$SERVICE_IP" := by
    decide
  refine ⟨by decide, by decide, e1, ?_, by decide, by decide, e2, ?_⟩
  · rw [e1]; exact List.infix_refl _
  · rw [e2]; exact List.infix_refl _

/-- Claim C8, amended: for every script and every service whose
`Origin.HostIP` and `Origin.HostPort` are non-empty, contain no dollar sign and
do not start with a letter of the tokens, the output of `interpolateService`
contains no occurrence of `$SERVICE_IP` and none of `$SERVICE_PORT`; and
`ping $SERVICE_IP:$SERVICE_PORT` with `HostIP = "10.0.0.5"` and
`HostPort = "8080"` gives `ping 10.0.0.5:8080`. -/
theorem interpolateService_no_token (r : ConsulAdapter) (script : String) (s : Service)
    (hip : tokenFree s.Origin.HostIP) (hport : tokenFree s.Origin.HostPort) :
    ¬ stringsContains (interpolateService r script s) "$SERVICE_IP" ∧
    ¬ stringsContains (interpolateService r script s) "$SERVICE_PORT" ∧
    interpolateService r "ping $SERVICE_IP:$SERVICE_PORT" sampleScript = "ping 10.0.0.5:8080" := by
  have h1 : ¬ "$SERVICE_IP".data <:+:
      (stringsReplaceAll script "$SERVICE_IP" s.Origin.HostIP).data :=
    no_token_after_replace script s.Origin.HostIP _ _ (by decide) hip (Or.inl rfl)
  refine ⟨?_, ?_, by rfl⟩
  · exact no_token_after_replace _ s.Origin.HostPort "SERVICE_PORT".data "SERVICE_IP".data
      (by decide) hport (Or.inr h1)
  · exact no_token_after_replace _ s.Origin.HostPort "SERVICE_PORT".data "SERVICE_PORT".data
      (by decide) hport (Or.inl rfl)

/-- Witness of the amended claim C8 at `HostIP = "10.0.0.5"`, `HostPort = "8080"`. -/
theorem interpolateService_no_token_witness :
    ¬ stringsContains (interpolateService {} "ping $SERVICE_IP:$SERVICE_PORT" sampleScript)
      "$SERVICE_IP" ∧
    ¬ stringsContains (interpolateService {} "ping $SERVICE_IP:$SERVICE_PORT" sampleScript)
      "$SERVICE_PORT" ∧
    interpolateService {} "ping $SERVICE_IP:$SERVICE_PORT" sampleScript = "ping 10.0.0.5:8080" :=
  interpolateService_no_token {} "ping $SERVICE_IP:$SERVICE_PORT" sampleScript
    ⟨by decide, '1', "0.0.0.5".data, rfl, by decide⟩
    ⟨by decide, '8', "080".data, rfl, by decide⟩

/-! ## Running adapter code -/

@[simp] theorem run_pure {σ α : Type} (a : α) (st : σ) :
    (pure a : Prog σ α).run st = Outcome.returned a st := rfl

@[simp] theorem run_bind {σ α β : Type} (m : Prog σ α) (k : α → Prog σ β) (st : σ) :
    (m >>= k).run st =
      match m.run st with
      | Outcome.returned a st1 => (k a).run st1
      | Outcome.panicked e st1 => Outcome.panicked e st1 := rfl

@[simp] theorem run_goPanic {σ α : Type} (e : Error) (st : σ) :
    (goPanic e : Prog σ α).run st = Outcome.panicked e st := rfl

@[simp] theorem run_invoke {σ : Type} (c : Client σ) (x : Call) (st : σ) :
    (c.invoke x).run st = Outcome.returned (c.call x st).1 (c.call x st).2 := rfl

theorem run_ite {σ α : Type} (p : Prop) [Decidable p] (x y : Prog σ α) (st : σ) :
    (if p then x else y).run st = if p then x.run st else y.run st := by
  split <;> rfl

theorem client_call_of_success (fails : List Call → Call → Option Error) (b : Backend)
    (x : Call) (h : fails b.calls x = none) :
    (Backend.client fails).call x b = (none, b.record x) := by
  simp [Backend.client, h]

/-- On a backend that does not fail the put, `insertAttribute` returns and the
put is recorded. -/
theorem run_insertAttribute (fails : List Call → Call → Option Error)
    (hput : ∀ h k v, fails h (Call.kvPut k v) = none) (key value : String) (b : Backend) :
    (insertAttribute (Backend.client fails) key value).run b
      = Outcome.returned () (b.record (Call.kvPut key value)) := by
  simp [insertAttribute, client_call_of_success fails b _ (hput _ _ _)]

theorem recordAll_nil (b : Backend) : b.recordAll [] = b := rfl

theorem recordAll_cons (b : Backend) (x : Call) (xs : List Call) :
    b.recordAll (x :: xs) = (b.record x).recordAll xs := rfl

theorem recordAll_append (b : Backend) (xs ys : List Call) :
    b.recordAll (xs ++ ys) = (b.recordAll xs).recordAll ys := by
  simp [Backend.recordAll, List.foldl_append]

theorem recordAll_calls (xs : List Call) :
    ∀ (b : Backend), (b.recordAll xs).calls = b.calls ++ xs := by
  induction xs with
  | nil => intro b; simp [recordAll_nil]
  | cons x xs ih =>
    intro b
    rw [recordAll_cons, ih]
    simp [Backend.record]

/-- One guarded statement of `insertContainerAttributes`, on a backend that
does not fail the put. -/
theorem run_guarded_insert (fails : List Call → Call → Option Error)
    (hput : ∀ h k v, fails h (Call.kvPut k v) = none) (key value : String) (b : Backend) :
    (if value ≠ "" then insertAttribute (Backend.client fails) key value
      else (pure () : Prog Backend Unit)).run b
      = Outcome.returned ()
          (b.recordAll (putsOf (([(key, value)].filter (fun fv => fv.2 ≠ ""))))) := by
  by_cases h : value = ""
  · simp [h, putsOf, recordAll_nil]
  · simp [h, putsOf, run_insertAttribute fails hput, recordAll_cons, recordAll_nil]

theorem putsOf_append (xs ys : List (String × String)) :
    putsOf (xs ++ ys) = putsOf xs ++ putsOf ys := by
  simp [putsOf]

/-- The entries of container projection, one guarded singleton per field, with
the keys as the source spells them. -/
theorem containerEntries_eq (r : ConsulAdapter) (s : Service) :
    containerEntries r s =
      [(r.containerPrefix ++ "/" ++ s.ID ++ "/ContainerID", s.Origin.ContainerID)].filter
          (fun fv => fv.2 ≠ "")
      ++ ([(r.containerPrefix ++ "/" ++ s.ID ++ "/ExposedIP", s.Origin.ExposedIP)].filter
          (fun fv => fv.2 ≠ "")
      ++ ([(r.containerPrefix ++ "/" ++ s.ID ++ "/HostIP", s.Origin.HostIP)].filter
          (fun fv => fv.2 ≠ "")
      ++ ([(r.containerPrefix ++ "/" ++ s.ID ++ "/HostPort", s.Origin.HostPort)].filter
          (fun fv => fv.2 ≠ "")
      ++ ([(r.containerPrefix ++ "/" ++ s.ID ++ "/PortType", s.Origin.PortType)].filter
          (fun fv => fv.2 ≠ "")
      ++ ([(r.containerPrefix ++ "/" ++ s.ID ++ "/ContainerHostname",
            s.Origin.ContainerHostname)].filter (fun fv => fv.2 ≠ "")
      ++ [(r.containerPrefix ++ "/" ++ s.ID ++ "/ExposedPort", s.Origin.ExposedPort)].filter
          (fun fv => fv.2 ≠ "")))))) := by
  have split7 : ∀ (a1 a2 a3 a4 a5 a6 a7 : String × String),
      [a1, a2, a3, a4, a5, a6, a7] = [a1] ++ ([a2] ++ ([a3] ++ ([a4] ++ ([a5] ++ ([a6] ++ [a7]))))) :=
    fun _ _ _ _ _ _ _ => rfl
  have single : ∀ (x name v : String),
      ([(name, v)].filter (fun fv => fv.2 ≠ "")).map (fun fv => (x ++ "/" ++ fv.1, fv.2))
        = [(x ++ ("/" ++ name), v)].filter (fun fv => fv.2 ≠ "") := by
    intro x name v
    by_cases h : v = "" <;> simp [h, String.append_assoc]
  unfold containerEntries originFields
  rw [split7]
  simp only [List.filter_append, List.map_append, single]
  rfl

/-- On a backend that does not fail a put, `insertContainerAttributes` returns
and has issued exactly the puts of `containerEntries`, in order. -/
theorem run_insertContainerAttributes (fails : List Call → Call → Option Error)
    (hput : ∀ h k v, fails h (Call.kvPut k v) = none) (r : ConsulAdapter) (s : Service)
    (b : Backend) :
    (insertContainerAttributes (Backend.client fails) r s).run b
      = Outcome.returned () (b.recordAll (putsOf (containerEntries r s))) := by
  rw [containerEntries_eq]
  simp only [putsOf_append, recordAll_append]
  unfold insertContainerAttributes
  simp only [run_bind, run_guarded_insert fails hput]

/-! ## Container projection -/

theorem length_containerEntries (r : ConsulAdapter) (s : Service) :
    (containerEntries r s).length = nonEmptyFieldCount s.Origin := by
  have single : ∀ (key v : String),
      ([(key, v)].filter (fun fv => fv.2 ≠ "")).length = if v ≠ "" then 1 else 0 := by
    intro key v
    by_cases h : v = "" <;> simp [h]
  rw [containerEntries_eq]
  simp only [List.length_append, single]
  unfold nonEmptyFieldCount
  omega

theorem nonEmptyFieldCount_le (o : ServiceOrigin) : nonEmptyFieldCount o ≤ 7 := by
  unfold nonEmptyFieldCount
  split <;> split <;> split <;> split <;> split <;> split <;> split <;> omega

/-! ## Attribute projection and `Register` -/

/-- On a backend that does not fail a put, the loop of
`insertServiceAttributes` returns and has issued one put per pair, in
iteration order. -/
theorem run_forRange_put (fails : List Call → Call → Option Error)
    (hput : ∀ h k v, fails h (Call.kvPut k v) = none) (pre : String) :
    ∀ (l : List (String × String)) (b : Backend),
      (forRange (fun k v => do
          let err ← (Backend.client fails).invoke (Call.kvPut (pre ++ k) v)
          match err with
          | some e => goPanic e
          | none => pure ()) l).run b
        = Outcome.returned () (b.recordAll (putsOf (l.map (fun kv => (pre ++ kv.1, kv.2))))) := by
  intro l
  induction l with
  | nil => intro b; rfl
  | cons kv rest ih =>
    intro b
    obtain ⟨k, v⟩ := kv
    simp only [forRange, run_bind, run_invoke,
      client_call_of_success fails _ _ (hput _ _ _), run_pure, ih]
    rfl

theorem run_insertServiceAttributes (fails : List Call → Call → Option Error)
    (hput : ∀ h k v, fails h (Call.kvPut k v) = none) (r : ConsulAdapter) (s : Service)
    (b : Backend) :
    (insertServiceAttributes (Backend.client fails) r s).run b
      = Outcome.returned () (b.recordAll (putsOf (attributeEntries r s))) := by
  have h := run_forRange_put fails hput (r.attributePrefix ++ "/" ++ s.ID ++ "/") s.Attrs b
  simp only [String.append_assoc] at h
  unfold insertServiceAttributes attributeEntries
  simp only [String.append_assoc]
  exact h

/-- The backend after a `Register` whose calls all succeed and whose
`buildCheck` does not panic: the attribute puts (when enabled), the container
puts (when enabled), then the registration. -/
theorem run_Register (fails : List Call → Call → Option Error)
    (hall : ∀ h x, fails h x = none) (r : ConsulAdapter) (s : Service) (b : Backend)
    (check : Option AgentServiceCheck) (hcheck : buildCheck r s = Except.ok check) :
    (Register (Backend.client fails) r s).run b
      = Outcome.returned none
          (((b.recordAll (if r.attributePrefix ≠ "" then putsOf (attributeEntries r s) else [])
            ).recordAll (if r.containerPrefix ≠ "" then putsOf (containerEntries r s) else [])
            ).record (Call.serviceRegister
              { ID := s.ID, Name := s.Name, Port := s.Port, Tags := s.Tags, Address := s.IP,
                Check := check })) := by
  have hput : ∀ h k v, fails h (Call.kvPut k v) = none := fun h k v => hall h _
  unfold Register
  simp only [hcheck, liftExcept, run_bind, run_pure, run_ite,
    run_insertServiceAttributes fails hput, run_insertContainerAttributes fails hput,
    run_invoke, client_call_of_success fails _ _ (hall _ _)]
  by_cases ha : r.attributePrefix = "" <;> by_cases hc : r.containerPrefix = "" <;>
    simp [ha, hc, recordAll_nil]

/-! ## The KV store after a sequence of calls -/

theorem record_kv_of_not_touches (b : Backend) (x : Call) (key : String)
    (h : ¬ x.touches key) : (b.record x).kv key = b.kv key := by
  cases x with
  | kvPut k v =>
    have hk : key ≠ k := fun e => h e.symm
    simp [Backend.record, Backend.apply, hk]
  | kvDeleteTree pfx =>
    have hk : ¬ pfx.data.isPrefixOf key.data = true := h
    simp only [Backend.record, Backend.apply, if_neg hk]
  | serviceRegister reg => rfl
  | serviceDeregister i => rfl

theorem record_serviceRegister_kv (b : Backend) (reg : AgentServiceRegistration) (key : String) :
    (b.record (Call.serviceRegister reg)).kv key = b.kv key := rfl

/-- Calls that do not touch a key leave its value unchanged. -/
theorem recordAll_kv_of_not_touches (key : String) :
    ∀ (xs : List Call) (b : Backend), (∀ x ∈ xs, ¬ x.touches key) →
      (b.recordAll xs).kv key = b.kv key := by
  intro xs
  induction xs with
  | nil => intro b _; rfl
  | cons x xs ih =>
    intro b h
    rw [recordAll_cons, ih _ (fun y hy => h y (List.mem_cons_of_mem _ hy)),
      record_kv_of_not_touches b x key (h x (List.mem_cons_self _ _))]

theorem not_touches_putsOf (key : String) (entries : List (String × String))
    (h : key ∉ entries.map Prod.fst) : ∀ x ∈ putsOf entries, ¬ x.touches key := by
  intro x hx ht
  simp only [putsOf, List.mem_map] at hx
  obtain ⟨kv, hkv, e⟩ := hx
  subst e
  exact h (List.mem_map.mpr ⟨kv, hkv, ht⟩)

/-- After the puts of a list of entries with pairwise distinct keys, every
entry of the list is stored. -/
theorem recordAll_putsOf_kv :
    ∀ (entries : List (String × String)) (b : Backend), (entries.map Prod.fst).Nodup →
      ∀ key value, (key, value) ∈ entries → (b.recordAll (putsOf entries)).kv key = some value := by
  intro entries
  induction entries with
  | nil => intro b _ key value h; cases h
  | cons e rest ih =>
    intro b hnd key value hm
    rw [List.map_cons, List.nodup_cons] at hnd
    have hstep : putsOf (e :: rest) = Call.kvPut e.1 e.2 :: putsOf rest := rfl
    rw [hstep, recordAll_cons]
    rcases List.mem_cons.mp hm with h | h
    · subst h
      rw [recordAll_kv_of_not_touches _ _ _ (not_touches_putsOf _ rest hnd.1)]
      simp [Backend.record, Backend.apply]
    · exact ih _ hnd.2 key value h

theorem string_append_left_cancel (a x y : String) (h : a ++ x = a ++ y) : x = y := by
  have h1 := congrArg String.data h
  simp only [String.data_append] at h1
  exact String.ext (List.append_cancel_left h1)

theorem nodup_attributeEntries (r : ConsulAdapter) (s : Service)
    (h : (s.Attrs.map Prod.fst).Nodup) : ((attributeEntries r s).map Prod.fst).Nodup := by
  have e : (attributeEntries r s).map Prod.fst
      = (s.Attrs.map Prod.fst).map (fun k => r.attributePrefix ++ "/" ++ s.ID ++ "/" ++ k) := by
    simp [attributeEntries, List.map_map, Function.comp_def]
  rw [e]
  exact h.map (fun x y hxy => string_append_left_cancel _ x y hxy)

theorem nodup_containerEntries (r : ConsulAdapter) (s : Service) :
    ((containerEntries r s).map Prod.fst).Nodup := by
  have e : (containerEntries r s).map Prod.fst
      = (((originFields s.Origin).filter (fun fv => fv.2 ≠ "")).map Prod.fst).map
          (fun k => r.containerPrefix ++ "/" ++ s.ID ++ "/" ++ k) := by
    simp [containerEntries, List.map_map, Function.comp_def]
  rw [e]
  have hn : ((originFields s.Origin).map Prod.fst).Nodup := by
    have e1 : (originFields s.Origin).map Prod.fst
        = ["ContainerID", "ExposedIP", "HostIP", "HostPort", "PortType", "ContainerHostname",
           "ExposedPort"] := rfl
    rw [e1]
    decide
  have hsub : (((originFields s.Origin).filter (fun fv => fv.2 ≠ "")).map Prod.fst).Nodup :=
    hn.sublist ((List.filter_sublist _).map Prod.fst)
  exact hsub.map (fun x y hxy => string_append_left_cancel _ x y hxy)

/-- Counterexample to claim C10: with `attributePrefix = containerPrefix = "kv"`,
the attribute `HostIP = "172.17.0.2"` and `Origin.HostIP = "10.0.0.5"`, a
`Register` whose calls all succeed leaves `"10.0.0.5"` at key
`kv/web-1/HostIP`, not the attribute value; with the distinct prefixes `"kv"`
and `"kv/web-1"` the attribute `web-1/HostIP` is overwritten in the same way. -/
theorem Register_attrs_counterexample :
    ("HostIP", "172.17.0.2") ∈ sampleClash.Attrs ∧
    ((Register (Backend.client reliable) { attributePrefix := "kv", containerPrefix := "kv" }
        sampleClash).run {}).value? = some none ∧
    ((Register (Backend.client reliable) { attributePrefix := "kv", containerPrefix := "kv" }
        sampleClash).run {}).state.kv ("kv" ++ "/" ++ "web-1" ++ "/" ++ "HostIP")
      = some "10.0.0.5" ∧
    ("web-1/HostIP", "172.17.0.2") ∈ sampleNestedClash.Attrs ∧
    ((Register (Backend.client reliable)
        { attributePrefix := "kv", containerPrefix := "kv/web-1" }
        sampleNestedClash).run {}).value? = some none ∧
    ((Register (Backend.client reliable)
        { attributePrefix := "kv", containerPrefix := "kv/web-1" }
        sampleNestedClash).run {}).state.kv ("kv" ++ "/" ++ "web-1" ++ "/" ++ "web-1/HostIP")
      = some "10.0.0.5" := by
  decide

/-- Claim C10, amended: for every service (its `Attrs` a map, so with pairwise
distinct keys) whose `buildCheck` does not panic and every configuration with
a non-empty `attributePrefix`, a `Register` against a backend whose calls all
succeed returns, and afterwards the KV store holds the value `v` at key
`attributePrefix + "/" + ID + "/" + k` for every pair `(k, v)` of `Attrs` whose
key is not also a key written by container projection; the entries of
container projection, written second, are all stored. -/
theorem Register_attrs_stored (r : ConsulAdapter) (s : Service) (b : Backend)
    (check : Option AgentServiceCheck)
    (hp : r.attributePrefix ≠ "") (hmap : (s.Attrs.map Prod.fst).Nodup)
    (hcheck : buildCheck r s = Except.ok check) :
    ∃ b1, (Register (Backend.client reliable) r s).run b = Outcome.returned none b1 ∧
      (∀ k v, (k, v) ∈ s.Attrs →
        (r.containerPrefix = "" ∨
          r.attributePrefix ++ "/" ++ s.ID ++ "/" ++ k ∉ (containerEntries r s).map Prod.fst) →
        b1.kv (r.attributePrefix ++ "/" ++ s.ID ++ "/" ++ k) = some v) ∧
      (r.containerPrefix ≠ "" →
        ∀ key value, (key, value) ∈ containerEntries r s → b1.kv key = some value) := by
  refine ⟨_, run_Register reliable (fun _ _ => rfl) r s b check hcheck, ?_, ?_⟩
  · intro k v hkv hfree
    rw [record_serviceRegister_kv, if_pos hp]
    have hstored : ((b.recordAll (putsOf (attributeEntries r s))).kv
        (r.attributePrefix ++ "/" ++ s.ID ++ "/" ++ k)) = some v :=
      recordAll_putsOf_kv _ b (nodup_attributeEntries r s hmap) _ _
        (List.mem_map.mpr ⟨(k, v), hkv, rfl⟩)
    rw [← hstored]
    apply recordAll_kv_of_not_touches
    by_cases hc : r.containerPrefix = ""
    · rw [if_neg (not_not.mpr hc)]
      intro x hx
      cases hx
    · rw [if_pos hc]
      rcases hfree with h | h
      · exact absurd h hc
      · exact not_touches_putsOf _ _ h
  · intro hc key value hm
    rw [record_serviceRegister_kv, if_pos hc]
    exact recordAll_putsOf_kv _ _ (nodup_containerEntries r s) key value hm

/-- Witness of the amended claim C10: two prefixes, two attributes, three
non-empty `Origin` fields, from the empty backend. -/
theorem Register_attrs_stored_witness :
    ∃ b1, (Register (Backend.client reliable)
        { attributePrefix := "attrs", containerPrefix := "containers" } sampleOrigin).run {}
        = Outcome.returned none b1 ∧
      (∀ k v, (k, v) ∈ sampleOrigin.Attrs →
        (({ attributePrefix := "attrs", containerPrefix := "containers" }
            : ConsulAdapter).containerPrefix = "" ∨
          ({ attributePrefix := "attrs", containerPrefix := "containers" }
            : ConsulAdapter).attributePrefix ++ "/" ++ sampleOrigin.ID ++ "/" ++ k
            ∉ (containerEntries { attributePrefix := "attrs", containerPrefix := "containers" }
                sampleOrigin).map Prod.fst) →
        b1.kv (({ attributePrefix := "attrs", containerPrefix := "containers" }
            : ConsulAdapter).attributePrefix ++ "/" ++ sampleOrigin.ID ++ "/" ++ k) = some v) ∧
      (({ attributePrefix := "attrs", containerPrefix := "containers" }
            : ConsulAdapter).containerPrefix ≠ "" →
        ∀ key value,
          (key, value) ∈ containerEntries
            { attributePrefix := "attrs", containerPrefix := "containers" } sampleOrigin →
          b1.kv key = some value) :=
  Register_attrs_stored { attributePrefix := "attrs", containerPrefix := "containers" }
    sampleOrigin {} none (by decide) (by decide) (by decide)

/-! ## `Deregister` -/

theorem client_call_fst (fails : List Call → Call → Option Error) (b : Backend) (x : Call) :
    ((Backend.client fails).call x b).1 = fails b.calls x := by
  unfold Backend.client
  cases h : fails b.calls x <;> simp [h]

theorem step_calls (fails : List Call → Call → Option Error) (b : Backend) (x : Call) :
    (b.step fails x).calls = b.calls ++ [x] := by
  unfold Backend.step Backend.client
  cases h : fails b.calls x <;> simp [h, Backend.record]

theorem step_of_success (fails : List Call → Call → Option Error) (b : Backend) (x : Call)
    (h : fails b.calls x = none) : b.step fails x = b.record x := by
  unfold Backend.step
  rw [client_call_of_success fails b x h]

theorem step_kv_of_not_touches (fails : List Call → Call → Option Error) (b : Backend)
    (x : Call) (key : String) (h : ¬ x.touches key) : (b.step fails x).kv key = b.kv key := by
  unfold Backend.step Backend.client
  cases hf : fails b.calls x with
  | none => simpa [hf] using record_kv_of_not_touches b x key h
  | some e => simp [hf]

/-- A tree deletion never adds a key. -/
theorem step_deleteTree_kv_none (fails : List Call → Call → Option Error) (b : Backend)
    (pfx key : String) (h : b.kv key = none) :
    (b.step fails (Call.kvDeleteTree pfx)).kv key = none := by
  unfold Backend.step Backend.client
  cases hf : fails b.calls (Call.kvDeleteTree pfx) with
  | none =>
    simp only [hf, Backend.record, Backend.apply]
    split
    · rfl
    · exact h
  | some e => simpa [hf] using h

theorem step_deleteTree_services (fails : List Call → Call → Option Error) (b : Backend)
    (pfx : String) : (b.step fails (Call.kvDeleteTree pfx)).services = b.services := by
  unfold Backend.step Backend.client
  cases hf : fails b.calls (Call.kvDeleteTree pfx) <;> simp [hf, Backend.record, Backend.apply]

/-- The run of `Deregister` on any backend: it always returns the result of
the agent call, after the agent call and the tree deletions of the enabled
prefixes. -/
theorem run_Deregister (fails : List Call → Call → Option Error) (r : ConsulAdapter)
    (s : Service) (b : Backend) :
    (Deregister (Backend.client fails) r s).run b
      = Outcome.returned (fails b.calls (Call.serviceDeregister s.ID))
          ((deregisterDeletes r s).foldl (Backend.step fails)
            (b.step fails (Call.serviceDeregister s.ID))) := by
  unfold Deregister deregisterDeletes
  simp only [run_bind, run_invoke, run_ite, run_pure, client_call_fst]
  by_cases ha : r.attributePrefix = "" <;> by_cases hc : r.containerPrefix = "" <;>
    simp [ha, hc, Backend.step]

theorem foldl_step_calls (fails : List Call → Call → Option Error) :
    ∀ (xs : List Call) (b : Backend),
      (xs.foldl (Backend.step fails) b).calls = b.calls ++ xs := by
  intro xs
  induction xs with
  | nil => intro b; simp
  | cons x xs ih =>
    intro b
    rw [List.foldl_cons, ih, step_calls]
    simp

theorem foldl_step_kv_of_not_touches (fails : List Call → Call → Option Error) (key : String) :
    ∀ (xs : List Call) (b : Backend), (∀ x ∈ xs, ¬ x.touches key) →
      (xs.foldl (Backend.step fails) b).kv key = b.kv key := by
  intro xs
  induction xs with
  | nil => intro b _; rfl
  | cons x xs ih =>
    intro b h
    rw [List.foldl_cons, ih _ (fun y hy => h y (List.mem_cons_of_mem _ hy)),
      step_kv_of_not_touches fails b x key (h x (List.mem_cons_self _ _))]

theorem step_deleteTree_kv_under (fails : List Call → Call → Option Error) (b : Backend)
    (pfx key : String) (hdel : fails b.calls (Call.kvDeleteTree pfx) = none)
    (h : pfx.data.isPrefixOf key.data = true) :
    (b.step fails (Call.kvDeleteTree pfx)).kv key = none := by
  rw [step_of_success fails b _ hdel]
  simp only [Backend.record, Backend.apply, h, if_true]

/-- Counterexample to claim C11: on a backend whose tree deletions fail,
`Deregister` returns the `nil` result of the agent call, yet the key
`attrs/web-1/region`, which lies under `attributePrefix + "/" + ID`, is still
stored afterwards. -/
theorem Deregister_clears_counterexample :
    sampleAdapter.attributePrefix ≠ "" ∧
    (sampleAdapter.attributePrefix ++ "/" ++ sampleOrigin.ID).data.isPrefixOf
      ("attrs/web-1/region" : String).data = true ∧
    ((Deregister (Backend.client deleteFails) sampleAdapter sampleOrigin).run
      sampleBackend).value? = some none ∧
    ((Deregister (Backend.client deleteFails) sampleAdapter sampleOrigin).run
      sampleBackend).state.kv "attrs/web-1/region" = some "eu" ∧
    ((Deregister (Backend.client deleteFails) sampleAdapter sampleOrigin).run
      sampleBackend).state.calls
      = [Call.serviceDeregister "web-1", Call.kvDeleteTree "attrs/web-1",
         Call.kvDeleteTree "containers/web-1"] := by
  decide

/-- Claim C11, amended: for every service, every backend state (its KV store
and registrations), every adapter configuration and every backend behaviour,
`Deregister` returns the result of the agent call, and afterwards: when
`attributePrefix` is non-empty and the tree deletion issued for it succeeds,
no key that has `attributePrefix + "/" + ID` as a prefix is stored; when
`containerPrefix` is non-empty and the tree deletion issued for it succeeds,
none that has `containerPrefix + "/" + ID` as a prefix; and when the agent
call succeeds the service ID is absent from the registrations.  The state is
arbitrary, so it may be the one left by a complete `Register`, by an aborted
one or by none. -/
theorem Deregister_clears (fails : List Call → Call → Option Error) (r : ConsulAdapter)
    (s : Service) (b : Backend) :
    ∃ b1, (Deregister (Backend.client fails) r s).run b
        = Outcome.returned (fails b.calls (Call.serviceDeregister s.ID)) b1 ∧
      (r.attributePrefix ≠ "" →
        fails (b.calls ++ [Call.serviceDeregister s.ID])
          (Call.kvDeleteTree (r.attributePrefix ++ "/" ++ s.ID)) = none →
        ∀ key, (r.attributePrefix ++ "/" ++ s.ID).data.isPrefixOf key.data = true →
          b1.kv key = none) ∧
      (r.containerPrefix ≠ "" →
        fails (b.calls ++ [Call.serviceDeregister s.ID]
            ++ (if r.attributePrefix ≠ "" then
                  [Call.kvDeleteTree (r.attributePrefix ++ "/" ++ s.ID)] else []))
          (Call.kvDeleteTree (r.containerPrefix ++ "/" ++ s.ID)) = none →
        ∀ key, (r.containerPrefix ++ "/" ++ s.ID).data.isPrefixOf key.data = true →
          b1.kv key = none) ∧
      (fails b.calls (Call.serviceDeregister s.ID) = none → b1.services s.ID = none) := by
  refine ⟨_, run_Deregister fails r s b, ?_, ?_, ?_⟩
  · intro ha hdel key hk
    have hdel1 : fails (b.step fails (Call.serviceDeregister s.ID)).calls
        (Call.kvDeleteTree (r.attributePrefix ++ "/" ++ s.ID)) = none := by
      rw [step_calls]; exact hdel
    unfold deregisterDeletes
    rw [if_pos ha]
    by_cases hc : r.containerPrefix = ""
    · rw [if_neg (not_not.mpr hc)]
      exact step_deleteTree_kv_under fails _ _ _ hdel1 hk
    · rw [if_pos hc]
      exact step_deleteTree_kv_none fails _ _ _
        (step_deleteTree_kv_under fails _ _ _ hdel1 hk)
  · intro hc hdel key hk
    unfold deregisterDeletes
    rw [if_pos hc]
    by_cases ha : r.attributePrefix = ""
    · rw [if_neg (not_not.mpr ha)] at hdel ⊢
      refine step_deleteTree_kv_under fails _ _ _ ?_ hk
      simpa [step_calls] using hdel
    · rw [if_pos ha] at hdel ⊢
      refine step_deleteTree_kv_under fails _ _ _ ?_ hk
      simpa [step_calls] using hdel
  · intro he
    have h0 : (b.step fails (Call.serviceDeregister s.ID)).services s.ID = none := by
      rw [step_of_success fails b _ he]
      simp [Backend.record, Backend.apply]
    unfold deregisterDeletes
    by_cases ha : r.attributePrefix = "" <;> by_cases hc : r.containerPrefix = "" <;>
      simp [ha, hc, step_deleteTree_services, h0]

/-- Witness of the amended claim C11: the state left by a `Register` that
aborted at its second put, then `Deregister` on the backend whose calls all
succeed. -/
theorem Deregister_clears_witness :
    ((Register (Backend.client (putFailsAfter 1)) sampleAdapter sampleOrigin).run {}).value?
      = none ∧
    ((Register (Backend.client (putFailsAfter 1)) sampleAdapter sampleOrigin).run {}).state.kv
      "attrs/web-1/region" = some "eu" ∧
    ((Deregister (Backend.client reliable) sampleAdapter sampleOrigin).run
      ((Register (Backend.client (putFailsAfter 1)) sampleAdapter sampleOrigin).run
        {}).state).state.kv "attrs/web-1/region" = none ∧
    ∃ b1, (Deregister (Backend.client reliable) sampleAdapter sampleOrigin).run
        ((Register (Backend.client (putFailsAfter 1)) sampleAdapter sampleOrigin).run {}).state
        = Outcome.returned
            (reliable
              ((Register (Backend.client (putFailsAfter 1)) sampleAdapter sampleOrigin).run
                {}).state.calls
              (Call.serviceDeregister sampleOrigin.ID)) b1 ∧
      (sampleAdapter.attributePrefix ≠ "" →
        reliable
          (((Register (Backend.client (putFailsAfter 1)) sampleAdapter sampleOrigin).run
              {}).state.calls ++ [Call.serviceDeregister sampleOrigin.ID])
          (Call.kvDeleteTree (sampleAdapter.attributePrefix ++ "/" ++ sampleOrigin.ID)) = none →
        ∀ key,
          (sampleAdapter.attributePrefix ++ "/" ++ sampleOrigin.ID).data.isPrefixOf key.data
            = true →
          b1.kv key = none) ∧
      (sampleAdapter.containerPrefix ≠ "" →
        reliable
          (((Register (Backend.client (putFailsAfter 1)) sampleAdapter sampleOrigin).run
              {}).state.calls ++ [Call.serviceDeregister sampleOrigin.ID]
            ++ (if sampleAdapter.attributePrefix ≠ "" then
                  [Call.kvDeleteTree (sampleAdapter.attributePrefix ++ "/" ++ sampleOrigin.ID)]
                else []))
          (Call.kvDeleteTree (sampleAdapter.containerPrefix ++ "/" ++ sampleOrigin.ID)) = none →
        ∀ key,
          (sampleAdapter.containerPrefix ++ "/" ++ sampleOrigin.ID).data.isPrefixOf key.data
            = true →
          b1.kv key = none) ∧
      (reliable
          ((Register (Backend.client (putFailsAfter 1)) sampleAdapter sampleOrigin).run
            {}).state.calls
          (Call.serviceDeregister sampleOrigin.ID) = none →
        b1.services sampleOrigin.ID = none) :=
  ⟨by decide, by decide, by decide,
    Deregister_clears reliable sampleAdapter sampleOrigin _⟩

/-- Claim C14: for every service, when `attributePrefix` and `containerPrefix`
are both empty, `Deregister` issues exactly one backend call, the agent
deregistration of `service.ID`, whatever the backend answers, and the KV
store is left unchanged. -/
theorem Deregister_no_prefix (fails : List Call → Call → Option Error) (r : ConsulAdapter)
    (s : Service) (b : Backend) (ha : r.attributePrefix = "") (hc : r.containerPrefix = "") :
    ∃ b1, (Deregister (Backend.client fails) r s).run b
        = Outcome.returned (fails b.calls (Call.serviceDeregister s.ID)) b1 ∧
      b1.calls = b.calls ++ [Call.serviceDeregister s.ID] ∧ b1.kv = b.kv := by
  refine ⟨_, run_Deregister fails r s b, ?_, ?_⟩
  · simp [deregisterDeletes, ha, hc, step_calls]
  · funext key
    simp only [deregisterDeletes, ha, hc, ne_eq, not_true_eq_false, if_false, List.append_nil,
      List.foldl_nil]
    exact step_kv_of_not_touches fails b _ key (fun h => h)

/-- Witness of claim C14 on a backend state that holds KV entries. -/
theorem Deregister_no_prefix_witness :
    sampleBackend.kv "attrs/web-1/region" = some "eu" ∧
    ∃ b1, (Deregister (Backend.client reliable) {} sampleOrigin).run sampleBackend
        = Outcome.returned (reliable sampleBackend.calls (Call.serviceDeregister sampleOrigin.ID))
            b1 ∧
      b1.calls = sampleBackend.calls ++ [Call.serviceDeregister sampleOrigin.ID] ∧
      b1.kv = sampleBackend.kv :=
  ⟨by decide, Deregister_no_prefix reliable {} sampleOrigin sampleBackend rfl rfl⟩

/-- Claim C15: for every service and every backend behaviour, `Deregister`
returns (it never panics) exactly the result of the agent deregistration of
`service.ID`, and the calls it issues are that agent call followed by one
tree deletion per enabled prefix, whether or not the agent call or a
deletion returns an error. -/
theorem Deregister_returns_agent_result (fails : List Call → Call → Option Error)
    (r : ConsulAdapter) (s : Service) (b : Backend) :
    ∃ b1, (Deregister (Backend.client fails) r s).run b
        = Outcome.returned (fails b.calls (Call.serviceDeregister s.ID)) b1 ∧
      ((Backend.client fails).call (Call.serviceDeregister s.ID) b).1
        = fails b.calls (Call.serviceDeregister s.ID) ∧
      b1.calls = b.calls ++ [Call.serviceDeregister s.ID]
        ++ (if r.attributePrefix ≠ "" then
              [Call.kvDeleteTree (r.attributePrefix ++ "/" ++ s.ID)] else [])
        ++ (if r.containerPrefix ≠ "" then
              [Call.kvDeleteTree (r.containerPrefix ++ "/" ++ s.ID)] else []) := by
  refine ⟨_, run_Deregister fails r s b, client_call_fst fails b _, ?_⟩
  rw [foldl_step_calls, step_calls]
  simp [deregisterDeletes, List.append_assoc]

/-! ## The projections on a backend that may fail -/

theorem attempt_nil (fails : List Call → Call → Option Error) (b : Backend) :
    Backend.attempt fails b [] = (b, none) := rfl

theorem attempt_cons_fail (fails : List Call → Call → Option Error) (b : Backend) (x : Call)
    (xs : List Call) (e : Error) (h : fails b.calls x = some e) :
    Backend.attempt fails b (x :: xs) = (b.step fails x, some e) := by
  simp [Backend.attempt, h]

theorem attempt_cons_ok (fails : List Call → Call → Option Error) (b : Backend) (x : Call)
    (xs : List Call) (h : fails b.calls x = none) :
    Backend.attempt fails b (x :: xs) = Backend.attempt fails (b.record x) xs := by
  simp [Backend.attempt, h, step_of_success fails b x h]

/-- Attempting `xs ++ ys` is attempting `xs` and, if none failed, `ys`. -/
theorem attempt_append (fails : List Call → Call → Option Error) (ys : List Call) :
    ∀ (xs : List Call) (b : Backend),
      Backend.attempt fails b (xs ++ ys) =
        match (Backend.attempt fails b xs).2 with
        | none => Backend.attempt fails (Backend.attempt fails b xs).1 ys
        | some e => ((Backend.attempt fails b xs).1, some e) := by
  intro xs
  induction xs with
  | nil => intro b; rfl
  | cons x xs ih =>
    intro b
    cases h : fails b.calls x with
    | none =>
      rw [List.cons_append, attempt_cons_ok fails b x _ h, attempt_cons_ok fails b x _ h, ih]
    | some e =>
      rw [List.cons_append, attempt_cons_fail fails b x _ e h, attempt_cons_fail fails b x _ e h]

/-- The run of `insertAttribute` on any backend. -/
theorem run_insertAttribute_attempt (fails : List Call → Call → Option Error)
    (key value : String) (b : Backend) :
    (insertAttribute (Backend.client fails) key value).run b
      = outcomeOf (Backend.attempt fails b [Call.kvPut key value]) := by
  unfold insertAttribute
  simp only [run_bind, run_invoke, client_call_fst]
  cases h : fails b.calls (Call.kvPut key value) with
  | none =>
    rw [attempt_cons_ok fails b _ _ h, attempt_nil]
    simp [outcomeOf, Backend.step, client_call_of_success fails b _ h]
  | some e =>
    rw [attempt_cons_fail fails b _ _ e h]
    simp [outcomeOf, Backend.step]

/-- Sequencing two pieces of code that each attempt a list of calls. -/
theorem run_seq_attempt (fails : List Call → Call → Option Error) (m n : Prog Backend Unit)
    (xs ys : List Call) (b : Backend)
    (hm : m.run b = outcomeOf (Backend.attempt fails b xs))
    (hn : ∀ b1, n.run b1 = outcomeOf (Backend.attempt fails b1 ys)) :
    (m >>= fun _ => n).run b = outcomeOf (Backend.attempt fails b (xs ++ ys)) := by
  rw [run_bind, hm, attempt_append]
  cases h : (Backend.attempt fails b xs).2 with
  | none => simp [outcomeOf, h, hn]
  | some e => simp [outcomeOf, h]

/-- One guarded statement of `insertContainerAttributes` on any backend. -/
theorem run_guarded_insert_attempt (fails : List Call → Call → Option Error)
    (key value : String) (b : Backend) :
    (if value ≠ "" then insertAttribute (Backend.client fails) key value
      else (pure () : Prog Backend Unit)).run b
      = outcomeOf (Backend.attempt fails b
          (putsOf ([(key, value)].filter (fun fv => fv.2 ≠ "")))) := by
  by_cases h : value = ""
  · simp [h, putsOf, attempt_nil, outcomeOf]
  · simp [h, putsOf, run_insertAttribute_attempt]

/-- The run of `insertContainerAttributes` on any backend: the puts of
`containerEntries` are attempted in order, a failure is a panic. -/
theorem run_insertContainerAttributes_attempt (fails : List Call → Call → Option Error)
    (r : ConsulAdapter) (s : Service) (b : Backend) :
    (insertContainerAttributes (Backend.client fails) r s).run b
      = outcomeOf (Backend.attempt fails b (putsOf (containerEntries r s))) := by
  rw [containerEntries_eq]
  simp only [putsOf_append]
  unfold insertContainerAttributes
  refine run_seq_attempt fails _ _ _ _ b (run_guarded_insert_attempt fails _ _ b) (fun b1 => ?_)
  refine run_seq_attempt fails _ _ _ _ b1 (run_guarded_insert_attempt fails _ _ b1) (fun b2 => ?_)
  refine run_seq_attempt fails _ _ _ _ b2 (run_guarded_insert_attempt fails _ _ b2) (fun b3 => ?_)
  refine run_seq_attempt fails _ _ _ _ b3 (run_guarded_insert_attempt fails _ _ b3) (fun b4 => ?_)
  refine run_seq_attempt fails _ _ _ _ b4 (run_guarded_insert_attempt fails _ _ b4) (fun b5 => ?_)
  refine run_seq_attempt fails _ _ _ _ b5 (run_guarded_insert_attempt fails _ _ b5) (fun b6 => ?_)
  exact run_guarded_insert_attempt fails _ _ b6

/-- The run of the loop of `insertServiceAttributes` on any backend. -/
theorem run_forRange_attempt (fails : List Call → Call → Option Error) (pre : String) :
    ∀ (l : List (String × String)) (b : Backend),
      (forRange (fun k v => do
          let err ← (Backend.client fails).invoke (Call.kvPut (pre ++ k) v)
          match err with
          | some e => goPanic e
          | none => pure ()) l).run b
        = outcomeOf (Backend.attempt fails b
            (putsOf (l.map (fun kv => (pre ++ kv.1, kv.2))))) := by
  intro l
  induction l with
  | nil => intro b; rfl
  | cons kv rest ih =>
    intro b
    obtain ⟨k, v⟩ := kv
    have hstep : putsOf (((k, v) :: rest).map (fun kv => (pre ++ kv.1, kv.2)))
        = [Call.kvPut (pre ++ k) v] ++ putsOf (rest.map (fun kv => (pre ++ kv.1, kv.2))) := rfl
    rw [hstep]
    exact run_seq_attempt fails _ _ _ _ b (run_insertAttribute_attempt fails _ _ b) (ih ·)

theorem run_insertServiceAttributes_attempt (fails : List Call → Call → Option Error)
    (r : ConsulAdapter) (s : Service) (b : Backend) :
    (insertServiceAttributes (Backend.client fails) r s).run b
      = outcomeOf (Backend.attempt fails b (putsOf (attributeEntries r s))) := by
  have h := run_forRange_attempt fails (r.attributePrefix ++ "/" ++ s.ID ++ "/") s.Attrs b
  simp only [String.append_assoc] at h
  unfold insertServiceAttributes attributeEntries
  simp only [String.append_assoc]
  exact h

/-! ## `Register` on a backend that may fail -/

/-- The projections of `Register` on any backend. -/
theorem run_projections_attempt (fails : List Call → Call → Option Error)
    (r : ConsulAdapter) (s : Service) (b : Backend) :
    ((if r.attributePrefix ≠ "" then insertServiceAttributes (Backend.client fails) r s
        else (pure () : Prog Backend Unit)) >>= fun _ =>
      (if r.containerPrefix ≠ "" then insertContainerAttributes (Backend.client fails) r s
        else (pure () : Prog Backend Unit))).run b
      = outcomeOf (Backend.attempt fails b (putsOf (registerEntries r s))) := by
  unfold registerEntries
  rw [putsOf_append]
  refine run_seq_attempt fails _ _ _ _ b ?_ (fun b1 => ?_)
  · by_cases ha : r.attributePrefix = ""
    · simp [ha, putsOf, attempt_nil, outcomeOf]
    · simp [ha, run_insertServiceAttributes_attempt]
  · by_cases hc : r.containerPrefix = ""
    · simp [hc, putsOf, attempt_nil, outcomeOf]
    · simp [hc, run_insertContainerAttributes_attempt]

/-- The run of `Register` on any backend, when `buildCheck` returns: the puts
of the enabled projections are attempted in order; a failure is a panic in
the state reached; otherwise the registration is submitted and its result
returned. -/
theorem run_Register_attempt (fails : List Call → Call → Option Error) (r : ConsulAdapter)
    (s : Service) (b : Backend) (check : Option AgentServiceCheck)
    (hcheck : buildCheck r s = Except.ok check) :
    (Register (Backend.client fails) r s).run b =
      match (Backend.attempt fails b (putsOf (registerEntries r s))).2 with
      | some e => Outcome.panicked e (Backend.attempt fails b (putsOf (registerEntries r s))).1
      | none =>
        Outcome.returned
          (fails (Backend.attempt fails b (putsOf (registerEntries r s))).1.calls
            (Call.serviceRegister (registrationOf s check)))
          ((Backend.attempt fails b (putsOf (registerEntries r s))).1.step fails
            (Call.serviceRegister (registrationOf s check))) := by
  have hp := run_projections_attempt fails r s b
  rw [run_bind] at hp
  unfold Register
  simp only [hcheck, liftExcept, run_bind, run_pure]
  cases h1 : (if r.attributePrefix ≠ "" then insertServiceAttributes (Backend.client fails) r s
        else (pure () : Prog Backend Unit)).run b with
  | returned u b1 =>
    rw [h1] at hp
    simp only at hp
    simp only [hp]
    cases h2 : (Backend.attempt fails b (putsOf (registerEntries r s))).2 with
    | none => simp [outcomeOf, h2, client_call_fst, Backend.step, registrationOf]
    | some e => simp [outcomeOf, h2]
  | panicked e b1 =>
    rw [h1] at hp
    simp only at hp
    cases h2 : (Backend.attempt fails b (putsOf (registerEntries r s))).2 with
    | none => simp [outcomeOf, h2] at hp
    | some e2 =>
      simp only [outcomeOf, h2, Outcome.panicked.injEq] at hp
      simp [hp.1, hp.2]

/-- The run of `Register` when `buildCheck` panics: nothing is issued. -/
theorem run_Register_of_panic {σ : Type} (c : Client σ) (r : ConsulAdapter) (s : Service)
    (st : σ) (e : Error) (hcheck : buildCheck r s = Except.error e) :
    (Register c r s).run st = Outcome.panicked e st := by
  unfold Register
  simp only [hcheck, liftExcept, run_bind, run_goPanic]

/-- When every put succeeds the attempt issues them all. -/
theorem attempt_of_putsSucceed (fails : List Call → Call → Option Error) :
    ∀ (entries : List (String × String)) (b : Backend), putsSucceed fails b entries →
      Backend.attempt fails b (putsOf entries) = (b.recordAll (putsOf entries), none) := by
  intro entries
  induction entries with
  | nil => intro b _; rfl
  | cons y rest ih =>
    intro b h
    have hy : fails b.calls (Call.kvPut y.1 y.2) = none := by
      have := h [] y rest rfl
      simpa [putsOf] using this
    have hstep : putsOf (y :: rest) = Call.kvPut y.1 y.2 :: putsOf rest := rfl
    rw [hstep, attempt_cons_ok fails b _ _ hy, recordAll_cons]
    apply ih
    intro p1 z p2 hsplit
    have := h (y :: p1) z p2 (by rw [hsplit]; rfl)
    simpa [putsOf, Backend.record, List.append_assoc] using this

/-- The attempt stops at the first put that fails, with the puts before it
applied and the failing put recorded. -/
theorem attempt_of_first_failure (fails : List Call → Call → Option Error)
    (k v : String) (e : Error) (post : List (String × String)) :
    ∀ (pre : List (String × String)) (b : Backend), putsSucceed fails b pre →
      fails (b.calls ++ putsOf pre) (Call.kvPut k v) = some e →
      Backend.attempt fails b (putsOf (pre ++ (k, v) :: post))
        = ((b.recordAll (putsOf pre)).step fails (Call.kvPut k v), some e) := by
  intro pre
  induction pre with
  | nil =>
    intro b _ hf
    have hf1 : fails b.calls (Call.kvPut k v) = some e := by simpa [putsOf] using hf
    exact attempt_cons_fail fails b _ _ e hf1
  | cons y rest ih =>
    intro b h hf
    have hy : fails b.calls (Call.kvPut y.1 y.2) = none := by
      have := h [] y rest rfl
      simpa [putsOf] using this
    have hstep : putsOf (y :: rest ++ (k, v) :: post)
        = Call.kvPut y.1 y.2 :: putsOf (rest ++ (k, v) :: post) := rfl
    have hstep2 : putsOf (y :: rest) = Call.kvPut y.1 y.2 :: putsOf rest := rfl
    rw [hstep, attempt_cons_ok fails b _ _ hy, hstep2, recordAll_cons]
    apply ih
    · intro p1 z p2 hsplit
      have := h (y :: p1) z p2 (by rw [hsplit]; rfl)
      simpa [putsOf, Backend.record, List.append_assoc] using this
    · simpa [putsOf, Backend.record, List.append_assoc] using hf

theorem attempt_calls (fails : List Call → Call → Option Error) :
    ∀ (xs : List Call) (b : Backend),
      ∃ n, (Backend.attempt fails b xs).1.calls = b.calls ++ xs.take n := by
  intro xs
  induction xs with
  | nil => intro b; exact ⟨0, by simp [attempt_nil]⟩
  | cons x xs ih =>
    intro b
    cases h : fails b.calls x with
    | none =>
      obtain ⟨n, hn⟩ := ih (b.record x)
      refine ⟨n + 1, ?_⟩
      rw [attempt_cons_ok fails b x _ h, hn]
      simp [Backend.record]
    | some e =>
      refine ⟨1, ?_⟩
      rw [attempt_cons_fail fails b x _ e h, step_calls]
      simp

theorem recordAll_putsOf_services :
    ∀ (entries : List (String × String)) (b : Backend),
      (b.recordAll (putsOf entries)).services = b.services := by
  intro entries
  induction entries with
  | nil => intro b; rfl
  | cons y rest ih =>
    intro b
    have hstep : putsOf (y :: rest) = Call.kvPut y.1 y.2 :: putsOf rest := rfl
    rw [hstep, recordAll_cons, ih]
    rfl

theorem step_of_failure (fails : List Call → Call → Option Error) (b : Backend) (x : Call)
    (e : Error) (h : fails b.calls x = some e) :
    b.step fails x = { b with calls := b.calls ++ [x] } := by
  simp [Backend.step, Backend.client, h]

theorem mem_putsOf (x : Call) (entries : List (String × String)) (h : x ∈ putsOf entries) :
    ∃ k v, x = Call.kvPut k v := by
  simp only [putsOf, List.mem_map] at h
  obtain ⟨kv, _, e⟩ := h
  exact ⟨kv.1, kv.2, e.symm⟩

/-- The calls of a `Register` whose `buildCheck` returns and whose puts all
succeed: the puts of the enabled projections, then the registration. -/
theorem Register_calls_of_success (fails : List Call → Call → Option Error)
    (r : ConsulAdapter) (s : Service) (b : Backend) (check : Option AgentServiceCheck)
    (hcheck : buildCheck r s = Except.ok check)
    (hproj : putsSucceed fails b (registerEntries r s)) :
    ((Register (Backend.client fails) r s).run b).state.calls
      = b.calls ++ putsOf (registerEntries r s)
        ++ [Call.serviceRegister
              { ID := s.ID, Name := s.Name, Port := s.Port, Tags := s.Tags, Address := s.IP,
                Check := check }] := by
  have hrun := run_Register_attempt fails r s b check hcheck
  rw [attempt_of_putsSucceed fails _ b hproj] at hrun
  simp only at hrun
  rw [hrun]
  simp [Outcome.state, step_calls, recordAll_calls, registrationOf]

/-- The registration step of `Register` when `buildCheck` returns a check (or
`nil`) and no put of the projections fails: after the puts exactly one agent
registration is issued, of the record with `ID = service.ID`,
`Name = service.Name`, `Port = service.Port`, `Tags = service.Tags`,
`Address = service.IP` and `Check` the result of `buildCheck`, and its result
is returned. -/
theorem Register_submits_registration (fails : List Call → Call → Option Error)
    (r : ConsulAdapter) (s : Service) (b : Backend) (check : Option AgentServiceCheck)
    (hcheck : buildCheck r s = Except.ok check)
    (hproj : putsSucceed fails b (registerEntries r s)) :
    (Register (Backend.client fails) r s).run b
      = Outcome.returned
          ((Backend.client fails).call
            (Call.serviceRegister
              { ID := s.ID, Name := s.Name, Port := s.Port, Tags := s.Tags, Address := s.IP,
                Check := check })
            (b.recordAll (putsOf (registerEntries r s)))).1
          ((Backend.client fails).call
            (Call.serviceRegister
              { ID := s.ID, Name := s.Name, Port := s.Port, Tags := s.Tags, Address := s.IP,
                Check := check })
            (b.recordAll (putsOf (registerEntries r s)))).2 ∧
    ((Register (Backend.client fails) r s).run b).state.calls
      = b.calls ++ putsOf (registerEntries r s)
        ++ [Call.serviceRegister
              { ID := s.ID, Name := s.Name, Port := s.Port, Tags := s.Tags, Address := s.IP,
                Check := check }] ∧
    (∀ x ∈ putsOf (registerEntries r s), ∀ reg, x ≠ Call.serviceRegister reg) := by
  have hrun := run_Register_attempt fails r s b check hcheck
  rw [attempt_of_putsSucceed fails _ b hproj] at hrun
  simp only at hrun
  refine ⟨?_, ?_, ?_⟩
  · rw [hrun, client_call_fst]
    rfl
  · exact Register_calls_of_success fails r s b check hcheck hproj
  · intro x hx reg e
    obtain ⟨k, v, h⟩ := mem_putsOf x _ hx
    rw [h] at e
    cases e

/-- The registration step at a service with an HTTP check, on the backend
whose calls all succeed. -/
theorem Register_submits_registration_witness :
    (Register (Backend.client reliable) sampleAdapter sampleHttp).run {}
      = Outcome.returned
          ((Backend.client reliable).call
            (Call.serviceRegister
              { ID := sampleHttp.ID, Name := sampleHttp.Name, Port := sampleHttp.Port,
                Tags := sampleHttp.Tags, Address := sampleHttp.IP,
                Check := some { HTTP := "http://10.0.0.5:8080/health", Timeout := "2s",
                                Interval := "10s" } })
            (({} : Backend).recordAll (putsOf (registerEntries sampleAdapter sampleHttp)))).1
          ((Backend.client reliable).call
            (Call.serviceRegister
              { ID := sampleHttp.ID, Name := sampleHttp.Name, Port := sampleHttp.Port,
                Tags := sampleHttp.Tags, Address := sampleHttp.IP,
                Check := some { HTTP := "http://10.0.0.5:8080/health", Timeout := "2s",
                                Interval := "10s" } })
            (({} : Backend).recordAll (putsOf (registerEntries sampleAdapter sampleHttp)))).2 ∧
    ((Register (Backend.client reliable) sampleAdapter sampleHttp).run {}).state.calls
      = ({} : Backend).calls ++ putsOf (registerEntries sampleAdapter sampleHttp)
        ++ [Call.serviceRegister
              { ID := sampleHttp.ID, Name := sampleHttp.Name, Port := sampleHttp.Port,
                Tags := sampleHttp.Tags, Address := sampleHttp.IP,
                Check := some { HTTP := "http://10.0.0.5:8080/health", Timeout := "2s",
                                Interval := "10s" } }] ∧
    (∀ x ∈ putsOf (registerEntries sampleAdapter sampleHttp),
      ∀ reg, x ≠ Call.serviceRegister reg) :=
  Register_submits_registration reliable sampleAdapter sampleHttp {} _ (by decide)
    (fun _ _ _ _ => rfl)

/-- Claim C16 at its failing input: for the service with `check_cmd = "true"`
and the three-character container ID `"abc"`, on the backend whose calls all
succeed (so no put of the projections can fail), `buildCheck` panics on
`ContainerID[:12]` and `Register` panics with it: no call is issued, no
registration record is submitted and nothing is returned. -/
theorem Register_short_id_panics :
    putsSucceed reliable {} (registerEntries sampleAdapter sampleCmdShortID) ∧
    buildCheck sampleAdapter sampleCmdShortID = Except.error "slice bounds out of range" ∧
    (Register (Backend.client reliable) sampleAdapter sampleCmdShortID).run {}
      = Outcome.panicked "slice bounds out of range" {} ∧
    ((Register (Backend.client reliable) sampleAdapter sampleCmdShortID).run {}).value? = none ∧
    ((Register (Backend.client reliable) sampleAdapter sampleCmdShortID).run {}).state.calls
      = [] ∧
    ((Register (Backend.client reliable) sampleAdapter sampleCmdShortID).run {}).state.services
      sampleCmdShortID.ID = none :=
  ⟨fun _ _ _ _ => rfl, by decide,
    run_Register_of_panic (Backend.client reliable) sampleAdapter sampleCmdShortID {}
      "slice bounds out of range" (by decide),
    by decide, by decide, by decide⟩

/-- Claim C17: for every service whose `buildCheck` returned, if a put issued
during the attribute or container projection of `Register` fails (the puts
before it having succeeded), `Register` panics with that error: the calls it
issued are the puts up to the failing one, with no agent registration and no
tree deletion among them, the KV store is the one left by the puts before
the failing put, and the registrations are unchanged. -/
theorem Register_put_failure (fails : List Call → Call → Option Error) (r : ConsulAdapter)
    (s : Service) (b : Backend) (check : Option AgentServiceCheck)
    (pre post : List (String × String)) (k v : String) (e : Error)
    (hcheck : buildCheck r s = Except.ok check)
    (hsplit : registerEntries r s = pre ++ (k, v) :: post)
    (hpre : putsSucceed fails b pre)
    (hfail : fails (b.calls ++ putsOf pre) (Call.kvPut k v) = some e) :
    ∃ b1, (Register (Backend.client fails) r s).run b = Outcome.panicked e b1 ∧
      b1.calls = b.calls ++ putsOf pre ++ [Call.kvPut k v] ∧
      (∀ reg, Call.serviceRegister reg ∉ putsOf pre ++ [Call.kvPut k v]) ∧
      (∀ pfx, Call.kvDeleteTree pfx ∉ putsOf pre ++ [Call.kvPut k v]) ∧
      b1.kv = (b.recordAll (putsOf pre)).kv ∧
      b1.services = b.services := by
  have hrun := run_Register_attempt fails r s b check hcheck
  rw [hsplit, attempt_of_first_failure fails k v e post pre b hpre hfail] at hrun
  simp only at hrun
  have hf : fails (b.recordAll (putsOf pre)).calls (Call.kvPut k v) = some e := by
    rw [recordAll_calls]; exact hfail
  have hmem : ∀ x ∈ putsOf pre ++ [Call.kvPut k v], ∃ k1 v1, x = Call.kvPut k1 v1 := by
    intro x hx
    rcases List.mem_append.mp hx with h | h
    · exact mem_putsOf x pre h
    · exact ⟨k, v, by simpa using h⟩
  refine ⟨_, hrun, ?_, ?_, ?_, ?_, ?_⟩
  · rw [step_calls, recordAll_calls]
  · intro reg h
    obtain ⟨k1, v1, e1⟩ := hmem _ h
    cases e1
  · intro pfx h
    obtain ⟨k1, v1, e1⟩ := hmem _ h
    cases e1
  · rw [step_of_failure fails _ _ e hf]
  · rw [step_of_failure fails _ _ e hf]
    exact recordAll_putsOf_services pre b

/-- Witness of claim C17: the second put of `Register` fails; the first
attribute entry stays in the store and nothing else is issued. -/
theorem Register_put_failure_witness :
    registerEntries sampleAdapter sampleOrigin
      = [("attrs/web-1/region", "eu")] ++ ("attrs/web-1/tier", "front") ::
          [("containers/web-1/ContainerID", "0123456789abcdef"),
           ("containers/web-1/HostIP", "10.0.0.5"), ("containers/web-1/HostPort", "8080")] ∧
    ((Register (Backend.client (putFailsAfter 1)) sampleAdapter sampleOrigin).run {}).state.kv
      "attrs/web-1/region" = some "eu" ∧
    ∃ b1, (Register (Backend.client (putFailsAfter 1)) sampleAdapter sampleOrigin).run {}
        = Outcome.panicked "kv unreachable" b1 ∧
      b1.calls = ({} : Backend).calls ++ putsOf [("attrs/web-1/region", "eu")]
        ++ [Call.kvPut "attrs/web-1/tier" "front"] ∧
      (∀ reg, Call.serviceRegister reg
        ∉ putsOf [("attrs/web-1/region", "eu")] ++ [Call.kvPut "attrs/web-1/tier" "front"]) ∧
      (∀ pfx, Call.kvDeleteTree pfx
        ∉ putsOf [("attrs/web-1/region", "eu")] ++ [Call.kvPut "attrs/web-1/tier" "front"]) ∧
      b1.kv = (({} : Backend).recordAll (putsOf [("attrs/web-1/region", "eu")])).kv ∧
      b1.services = ({} : Backend).services :=
  ⟨by decide, by decide,
    Register_put_failure (putFailsAfter 1) sampleAdapter sampleOrigin {} none
      [("attrs/web-1/region", "eu")]
      [("containers/web-1/ContainerID", "0123456789abcdef"),
       ("containers/web-1/HostIP", "10.0.0.5"), ("containers/web-1/HostPort", "8080")]
      "attrs/web-1/tier" "front" "kv unreachable" (by decide) (by decide)
      (by
        intro p1 y p2 h
        cases p1 with
        | nil => rfl
        | cons z p1 =>
          have h1 := congrArg List.length h
          simp at h1)
      (by decide)⟩

theorem not_prefix_of_isPrefixOf_false (l1 l2 : List Char) (h : l1.isPrefixOf l2 = false) :
    ¬ l1 <+: l2 := by
  intro hp
  rw [List.isPrefixOf_iff_prefix.mpr hp] at h
  cases h

/-- Two paths that start the same string are comparable. -/
theorem not_pathApart_of_append_eq (x y u v : String)
    (h : x ++ "/" ++ u = y ++ "/" ++ v) : ¬ pathApart x y := by
  intro hap
  have hd : (x ++ "/").data ++ u.data = (y ++ "/").data ++ v.data := by
    have := congrArg String.data h
    simpa only [String.data_append] using this
  have h1 : (x ++ "/").data <+: (x ++ "/").data ++ u.data := List.prefix_append _ _
  have h2 : (y ++ "/").data <+: (x ++ "/").data ++ u.data := by
    rw [hd]; exact List.prefix_append _ _
  rcases List.prefix_or_prefix_of_prefix h1 h2 with h3 | h3
  · exact not_prefix_of_isPrefixOf_false _ _ hap.1 h3
  · exact not_prefix_of_isPrefixOf_false _ _ hap.2 h3

theorem pathApart_symm (x y : String) (h : pathApart x y) : pathApart y x := ⟨h.2, h.1⟩

/-- The shape of a key `Register` writes: an enabled prefix, the ID, a name. -/
theorem mem_registerKeys (r : ConsulAdapter) (s : Service) (key : String)
    (h : key ∈ registerKeys r s) :
    ∃ p k, (p = r.attributePrefix ∨ p = r.containerPrefix) ∧ p ≠ "" ∧
      key = p ++ "/" ++ s.ID ++ "/" ++ k := by
  unfold registerKeys registerEntries at h
  rw [List.map_append, List.mem_append] at h
  rcases h with h | h
  · by_cases ha : r.attributePrefix = ""
    · simp [ha] at h
    · rw [if_pos ha] at h
      simp only [attributeEntries, List.mem_map] at h
      obtain ⟨e, ⟨kv, _, he⟩, hk⟩ := h
      exact ⟨r.attributePrefix, kv.1, Or.inl rfl, ha, by rw [← hk, ← he]⟩
  · by_cases hc : r.containerPrefix = ""
    · simp [hc] at h
    · rw [if_pos hc] at h
      simp only [containerEntries, List.mem_map] at h
      obtain ⟨e, ⟨fv, _, he⟩, hk⟩ := h
      exact ⟨r.containerPrefix, fv.1, Or.inr rfl, hc, by rw [← hk, ← he]⟩

/-- Two enabled prefixes of a configuration with separate namespaces are
equal or apart. -/
theorem eq_or_pathApart_of_prefixesApart (r : ConsulAdapter) (h : prefixesApart r)
    (p q : String) (hp : p = r.attributePrefix ∨ p = r.containerPrefix) (hpne : p ≠ "")
    (hq : q = r.attributePrefix ∨ q = r.containerPrefix) (hqne : q ≠ "") :
    p = q ∨ pathApart p q := by
  rcases hp with hp | hp <;> rcases hq with hq | hq
  · exact Or.inl (hp.trans hq.symm)
  · rcases h with h | h | h | h
    · exact absurd (hp.trans h) hpne
    · exact absurd (hq.trans h) hqne
    · exact Or.inl (by rw [hp, hq, h])
    · exact Or.inr (by rw [hp, hq]; exact h)
  · rcases h with h | h | h | h
    · exact absurd (hq.trans h) hqne
    · exact absurd (hp.trans h) hpne
    · exact Or.inl (by rw [hp, hq, h])
    · exact Or.inr (by rw [hp, hq]; exact pathApart_symm _ _ h)
  · exact Or.inl (hp.trans hq.symm)

/-- With separate namespaces and IDs that are apart as paths, no key is
written for both services. -/
theorem registerKeys_no_common_key (r : ConsulAdapter) (a b : Service)
    (hids : pathApart a.ID b.ID) (hpre : prefixesApart r) (key : String)
    (ha : key ∈ registerKeys r a) (hb : key ∈ registerKeys r b) : False := by
  obtain ⟨p, k1, hp, hpne, e1⟩ := mem_registerKeys r a key ha
  obtain ⟨q, k2, hq, hqne, e2⟩ := mem_registerKeys r b key hb
  have e : p ++ "/" ++ (a.ID ++ "/" ++ k1) = q ++ "/" ++ (b.ID ++ "/" ++ k2) := by
    rw [← String.append_assoc, ← String.append_assoc, ← String.append_assoc,
      ← String.append_assoc, ← e1, ← e2]
  rcases eq_or_pathApart_of_prefixesApart r hpre p q hp hpne hq hqne with h | h
  · subst h
    exact not_pathApart_of_append_eq _ _ _ _ (string_append_left_cancel _ _ _ e) hids
  · exact not_pathApart_of_append_eq _ _ _ _ e h

/-- On the backend whose calls all succeed, a `Register` whose `buildCheck`
returns leaves the backend reached by its calls. -/
theorem run_Register_reliable (r : ConsulAdapter) (s : Service) (b : Backend)
    (check : Option AgentServiceCheck) (hcheck : buildCheck r s = Except.ok check) :
    ((Register (Backend.client reliable) r s).run b).state
      = b.recordAll (registerCalls r s check) := by
  have hrun := run_Register_attempt reliable r s b check hcheck
  rw [attempt_of_putsSucceed reliable _ b (fun _ _ _ _ => rfl)] at hrun
  simp only at hrun
  rw [hrun, registerCalls, recordAll_append]
  simp only [Outcome.state]
  rw [step_of_success reliable _ _ rfl]
  rfl

theorem touches_registerCalls (r : ConsulAdapter) (s : Service)
    (check : Option AgentServiceCheck) (key : String) (x : Call)
    (hx : x ∈ registerCalls r s check) (ht : x.touches key) : key ∈ registerKeys r s := by
  rcases List.mem_append.mp hx with h | h
  · simp only [putsOf, List.mem_map] at h
    obtain ⟨kv, hkv, e⟩ := h
    subst e
    exact List.mem_map.mpr ⟨kv, hkv, ht⟩
  · have e : x = Call.serviceRegister (registrationOf s check) := by simpa using h
    subst e
    exact absurd ht (fun h => h)

/-- The value stored at a key after a call depends only on the value stored
there before. -/
theorem record_kv_congr (b1 b2 : Backend) (x : Call) (key : String)
    (h : b1.kv key = b2.kv key) : (b1.record x).kv key = (b2.record x).kv key := by
  cases x with
  | kvPut k v => simp only [Backend.record, Backend.apply, h]
  | kvDeleteTree pfx => simp only [Backend.record, Backend.apply, h]
  | serviceRegister reg => exact h
  | serviceDeregister i => exact h

theorem recordAll_kv_congr (key : String) :
    ∀ (xs : List Call) (b1 b2 : Backend), b1.kv key = b2.kv key →
      (b1.recordAll xs).kv key = (b2.recordAll xs).kv key := by
  intro xs
  induction xs with
  | nil => intro b1 b2 h; exact h
  | cons x xs ih =>
    intro b1 b2 h
    rw [recordAll_cons, recordAll_cons]
    exact ih _ _ (record_kv_congr b1 b2 x key h)

/-- Two sequences of calls that do not both touch a key can be swapped
without changing the value stored there. -/
theorem recordAll_kv_swap (key : String) (xs ys : List Call) (b : Backend)
    (h : (∀ x ∈ xs, ¬ x.touches key) ∨ (∀ y ∈ ys, ¬ y.touches key)) :
    ((b.recordAll xs).recordAll ys).kv key = ((b.recordAll ys).recordAll xs).kv key := by
  rcases h with h | h
  · rw [recordAll_kv_of_not_touches key xs _ h]
    exact recordAll_kv_congr key ys _ _ (recordAll_kv_of_not_touches key xs b h)
  · rw [recordAll_kv_of_not_touches key ys _ h]
    exact (recordAll_kv_congr key xs _ _ (recordAll_kv_of_not_touches key ys b h)).symm

/-- Counterexample to claim C12: the services with the distinct IDs `a` and
`a/b` both write the key `kv/a/b/c`, and the value left there depends on the
order of the two `Register`; the services with the IDs `a` and `b` collide in
the same way at `p/a/b/HostIP` when the container prefix is `p/a` and the
attribute prefix `p`. -/
theorem Register_keys_counterexample :
    sampleSlashA.ID ≠ sampleSlashB.ID ∧
    "kv/a/b/c" ∈ registerKeys { attributePrefix := "kv" } sampleSlashA ∧
    "kv/a/b/c" ∈ registerKeys { attributePrefix := "kv" } sampleSlashB ∧
    (afterBoth { attributePrefix := "kv" } sampleSlashA sampleSlashB {}).kv "kv/a/b/c"
      = some "2" ∧
    (afterBoth { attributePrefix := "kv" } sampleSlashB sampleSlashA {}).kv "kv/a/b/c"
      = some "1" ∧
    sampleNestA.ID ≠ sampleNestB.ID ∧
    "p/a/b/HostIP" ∈ registerKeys sampleNestedAdapter sampleNestA ∧
    "p/a/b/HostIP" ∈ registerKeys sampleNestedAdapter sampleNestB ∧
    (afterBoth sampleNestedAdapter sampleNestA sampleNestB {}).kv "p/a/b/HostIP"
      = some "10.0.0.5" ∧
    (afterBoth sampleNestedAdapter sampleNestB sampleNestA {}).kv "p/a/b/HostIP"
      = some "1" := by
  decide

/-- Claim C12, amended: for every two services whose IDs are apart as paths
(neither `ID + "/"` is a prefix of the other one; distinct IDs without a
slash are) and every configuration whose two namespaces are separate (a
prefix is empty, or the prefixes are equal, or apart as paths), whatever the
`Attrs`: no key is written by `Register` for both services; and when both
`buildCheck` return, on a backend whose calls all succeed, the two
`Register` leave the same KV store in either order, in which the keys of
each service hold what its own `Register` wrote. -/
theorem Register_keys_disjoint (r : ConsulAdapter) (s1 s2 : Service)
    (hids : pathApart s1.ID s2.ID) (hpre : prefixesApart r) :
    s1.ID ≠ s2.ID ∧
    (∀ key, key ∈ registerKeys r s1 → key ∉ registerKeys r s2) ∧
    (∀ (b : Backend) (check1 check2 : Option AgentServiceCheck),
      buildCheck r s1 = Except.ok check1 → buildCheck r s2 = Except.ok check2 →
      ((Register (Backend.client reliable) r s1).run b).state.calls
        = b.calls ++ putsOf (registerEntries r s1)
          ++ [Call.serviceRegister (registrationOf s1 check1)] ∧
      (∀ key, (afterBoth r s1 s2 b).kv key = (afterBoth r s2 s1 b).kv key) ∧
      (∀ key, key ∈ registerKeys r s1 →
        (afterBoth r s1 s2 b).kv key
          = ((Register (Backend.client reliable) r s1).run b).state.kv key) ∧
      (∀ key, key ∈ registerKeys r s2 →
        (afterBoth r s2 s1 b).kv key
          = ((Register (Backend.client reliable) r s2).run b).state.kv key)) := by
  have hdisj : ∀ key, key ∈ registerKeys r s1 → key ∉ registerKeys r s2 :=
    fun key h1 h2 => registerKeys_no_common_key r s1 s2 hids hpre key h1 h2
  refine ⟨?_, hdisj, ?_⟩
  · intro e
    have h := hids.1
    rw [e, List.isPrefixOf_iff_prefix.mpr (List.prefix_refl _)] at h
    cases h
  · intro b check1 check2 h1 h2
    have e12 : afterBoth r s1 s2 b
        = (b.recordAll (registerCalls r s1 check1)).recordAll (registerCalls r s2 check2) := by
      unfold afterBoth
      rw [run_Register_reliable r s1 b check1 h1, run_Register_reliable r s2 _ check2 h2]
    have e21 : afterBoth r s2 s1 b
        = (b.recordAll (registerCalls r s2 check2)).recordAll (registerCalls r s1 check1) := by
      unfold afterBoth
      rw [run_Register_reliable r s2 b check2 h2, run_Register_reliable r s1 _ check1 h1]
    refine ⟨?_, ?_, ?_, ?_⟩
    · rw [run_Register_reliable r s1 b check1 h1, recordAll_calls, registerCalls,
        List.append_assoc]
    · intro key
      rw [e12, e21]
      apply recordAll_kv_swap
      by_cases hk : key ∈ registerKeys r s1
      · exact Or.inr (fun y hy ht => hdisj key hk (touches_registerCalls r s2 check2 key y hy ht))
      · exact Or.inl (fun x hx ht => hk (touches_registerCalls r s1 check1 key x hx ht))
    · intro key hk
      rw [e12, run_Register_reliable r s1 b check1 h1]
      exact recordAll_kv_of_not_touches key _ _
        (fun y hy ht => hdisj key hk (touches_registerCalls r s2 check2 key y hy ht))
    · intro key hk
      rw [e21, run_Register_reliable r s2 b check2 h2]
      exact recordAll_kv_of_not_touches key _ _
        (fun x hx ht => hdisj key (touches_registerCalls r s1 check1 key x hx ht) hk)

/-- Witness of the amended claim C12: the services `web-1` and `db-1` under
the prefixes `attrs` and `containers`. -/
theorem Register_keys_disjoint_witness :
    sampleOrigin.ID ≠ sampleDb.ID ∧
    (∀ key, key ∈ registerKeys sampleAdapter sampleOrigin →
      key ∉ registerKeys sampleAdapter sampleDb) ∧
    (∀ (b : Backend) (check1 check2 : Option AgentServiceCheck),
      buildCheck sampleAdapter sampleOrigin = Except.ok check1 →
      buildCheck sampleAdapter sampleDb = Except.ok check2 →
      ((Register (Backend.client reliable) sampleAdapter sampleOrigin).run b).state.calls
        = b.calls ++ putsOf (registerEntries sampleAdapter sampleOrigin)
          ++ [Call.serviceRegister (registrationOf sampleOrigin check1)] ∧
      (∀ key, (afterBoth sampleAdapter sampleOrigin sampleDb b).kv key
        = (afterBoth sampleAdapter sampleDb sampleOrigin b).kv key) ∧
      (∀ key, key ∈ registerKeys sampleAdapter sampleOrigin →
        (afterBoth sampleAdapter sampleOrigin sampleDb b).kv key
          = ((Register (Backend.client reliable) sampleAdapter sampleOrigin).run b).state.kv
              key) ∧
      (∀ key, key ∈ registerKeys sampleAdapter sampleDb →
        (afterBoth sampleAdapter sampleDb sampleOrigin b).kv key
          = ((Register (Backend.client reliable) sampleAdapter sampleDb).run b).state.kv key)) :=
  Register_keys_disjoint sampleAdapter sampleOrigin sampleDb
    (by unfold pathApart; decide)
    (Or.inr (Or.inr (Or.inr (by unfold pathApart; decide))))

/-! ## `Deregister` and the entries of another service -/

theorem not_pathApart_of_prefixes (x y : String) (l : List Char)
    (h1 : (x ++ "/").data <+: l) (h2 : (y ++ "/").data <+: l) : ¬ pathApart x y := by
  intro hap
  rcases List.prefix_or_prefix_of_prefix h1 h2 with h3 | h3
  · exact not_prefix_of_isPrefixOf_false _ _ hap.1 h3
  · exact not_prefix_of_isPrefixOf_false _ _ hap.2 h3

/-- With separate namespaces and IDs out of reach, a tree deletion of
`Deregister` for one service touches no key written for the other. -/
theorem not_touches_deregisterDeletes (r : ConsulAdapter) (a b : Service)
    (hids : deleteApart a.ID b.ID) (hpre : prefixesApart r) (key : String)
    (hk : key ∈ registerKeys r b) : ∀ x ∈ deregisterDeletes r a, ¬ x.touches key := by
  obtain ⟨q, k, hq, hqne, e⟩ := mem_registerKeys r b key hk
  have ekey : key.data = (q ++ "/").data ++ ((b.ID ++ "/").data ++ k.data) := by
    rw [e]
    simp only [String.data_append, List.append_assoc]
  have main : ∀ p, (p = r.attributePrefix ∨ p = r.containerPrefix) → p ≠ "" →
      ¬ (Call.kvDeleteTree (p ++ "/" ++ a.ID)).touches key := by
    intro p hp hpne ht
    have ht1 : (p ++ "/" ++ a.ID).data <+: key.data := List.isPrefixOf_iff_prefix.mp ht
    have ht2 : (p ++ "/").data ++ a.ID.data <+: key.data := by
      simpa only [String.data_append] using ht1
    have hP : (p ++ "/").data <+: key.data := (List.prefix_append _ _).trans ht2
    have hQ : (q ++ "/").data <+: key.data := by rw [ekey]; exact List.prefix_append _ _
    rcases eq_or_pathApart_of_prefixesApart r hpre p q hp hpne hq hqne with h | h
    · subst h
      rw [ekey, List.prefix_append_right_inj] at ht2
      have hB : (b.ID ++ "/").data <+: (b.ID ++ "/").data ++ k.data := List.prefix_append _ _
      rcases List.prefix_or_prefix_of_prefix ht2 hB with h3 | h3
      · exact not_prefix_of_isPrefixOf_false _ _ hids.1 h3
      · exact not_prefix_of_isPrefixOf_false _ _ hids.2 h3
    · exact not_pathApart_of_prefixes p q key.data hP hQ h
  intro x hx
  unfold deregisterDeletes at hx
  rcases List.mem_append.mp hx with h | h
  · by_cases ha : r.attributePrefix = ""
    · simp [ha] at h
    · rw [if_pos ha] at h
      have e1 : x = Call.kvDeleteTree (r.attributePrefix ++ "/" ++ a.ID) := by simpa using h
      rw [e1]
      exact main _ (Or.inl rfl) ha
  · by_cases hc : r.containerPrefix = ""
    · simp [hc] at h
    · rw [if_pos hc] at h
      have e1 : x = Call.kvDeleteTree (r.containerPrefix ++ "/" ++ a.ID) := by simpa using h
      rw [e1]
      exact main _ (Or.inr rfl) hc

/-- Counterexample to claim C18: after `Register` for `web-1`, `Deregister`
for the distinct ID `web` deletes the entry `attrs/web-1/region`, because
`attrs/web` is a prefix of that key; likewise `Deregister` for the ID `a`
deletes the entry `kv/a/b/c` of the service with ID `a/b`. -/
theorem Deregister_other_counterexample :
    sampleShortID.ID ≠ sampleOrigin.ID ∧
    "attrs/web-1/region" ∈ registerKeys sampleAdapter sampleOrigin ∧
    ((Register (Backend.client reliable) sampleAdapter sampleOrigin).run {}).state.kv
      "attrs/web-1/region" = some "eu" ∧
    ((Deregister (Backend.client reliable) sampleAdapter sampleShortID).run
      ((Register (Backend.client reliable) sampleAdapter sampleOrigin).run {}).state).state.kv
      "attrs/web-1/region" = none ∧
    sampleSlashA.ID ≠ sampleSlashB.ID ∧
    "kv/a/b/c" ∈ registerKeys { attributePrefix := "kv" } sampleSlashB ∧
    ((Register (Backend.client reliable) { attributePrefix := "kv" } sampleSlashB).run
      {}).state.kv "kv/a/b/c" = some "2" ∧
    ((Deregister (Backend.client reliable) { attributePrefix := "kv" } sampleSlashA).run
      ((Register (Backend.client reliable) { attributePrefix := "kv" } sampleSlashB).run
        {}).state).state.kv "kv/a/b/c" = none := by
  decide

/-- Claim C18, amended: for every two services A and B such that `A.ID` is
not a prefix of `B.ID + "/"` and `B.ID + "/"` is not a prefix of `A.ID`, and
every configuration whose two namespaces are separate (a prefix is empty, or
the prefixes are equal, or apart as paths), on every backend and from every
state, `Deregister(A)` returns and leaves unchanged the value at every key
that `Register(B)` writes. -/
theorem Deregister_keeps_other (fails : List Call → Call → Option Error) (r : ConsulAdapter)
    (a b : Service) (st : Backend)
    (hids : deleteApart a.ID b.ID) (hpre : prefixesApart r) :
    ∃ e st1, (Deregister (Backend.client fails) r a).run st = Outcome.returned e st1 ∧
      ∀ key, key ∈ registerKeys r b → st1.kv key = st.kv key := by
  refine ⟨_, _, run_Deregister fails r a st, ?_⟩
  intro key hk
  rw [foldl_step_kv_of_not_touches fails key _ _
    (not_touches_deregisterDeletes r a b hids hpre key hk)]
  exact step_kv_of_not_touches fails st _ key (fun h => h)

/-- Witness of the amended claim C18: `Deregister` for `db-1` from the state
left by `Register` for `web-1`. -/
theorem Deregister_keeps_other_witness :
    ((Register (Backend.client reliable) sampleAdapter sampleOrigin).run {}).state.kv
      "attrs/web-1/region" = some "eu" ∧
    ∃ e st1, (Deregister (Backend.client reliable) sampleAdapter sampleDb).run
        ((Register (Backend.client reliable) sampleAdapter sampleOrigin).run {}).state
        = Outcome.returned e st1 ∧
      ∀ key, key ∈ registerKeys sampleAdapter sampleOrigin →
        st1.kv key
          = ((Register (Backend.client reliable) sampleAdapter sampleOrigin).run {}).state.kv
              key :=
  ⟨by decide,
    Deregister_keeps_other reliable sampleAdapter sampleDb sampleOrigin _
      (by unfold deleteApart; decide)
      (Or.inr (Or.inr (Or.inr (by unfold pathApart; decide))))⟩

/-! ## Container projection on a backend that may fail -/

theorem outcomeOf_state (res : Backend × Option Error) : (outcomeOf res).state = res.1 := by
  unfold outcomeOf
  cases res.2 <;> rfl

theorem mem_putsOf_containerEntries (r : ConsulAdapter) (s : Service) (key value : String) :
    Call.kvPut key value ∈ putsOf (containerEntries r s) ↔
      ∃ name, (name, value) ∈ originFields s.Origin ∧ value ≠ "" ∧
        key = r.containerPrefix ++ "/" ++ s.ID ++ "/" ++ name := by
  simp only [putsOf, containerEntries, List.mem_map, List.mem_filter, Prod.exists]
  constructor
  · rintro ⟨k1, v1, ⟨n, v, ⟨hm, hv⟩, e⟩, e1⟩
    cases e
    cases e1
    exact ⟨n, hm, by simpa using hv, rfl⟩
  · rintro ⟨n, hm, hv, e⟩
    exact ⟨key, value, ⟨n, value, ⟨hm, by simpa using hv⟩, by rw [e]⟩, rfl⟩

/-- Counterexample to claim C9: the service has three non-empty `Origin`
fields; on a backend whose second put fails, container projection panics
after issuing two puts, and the failing put and the one for `HostPort` leave
no entry. -/
theorem insertContainerAttributes_puts_counterexample :
    ({ containerPrefix := "containers" } : ConsulAdapter).containerPrefix ≠ "" ∧
    nonEmptyFieldCount sampleOrigin.Origin = 3 ∧
    ((insertContainerAttributes (Backend.client (putFailsAfter 1))
        { containerPrefix := "containers" } sampleOrigin).run {}).value? = none ∧
    ((insertContainerAttributes (Backend.client (putFailsAfter 1))
        { containerPrefix := "containers" } sampleOrigin).run {}).state.calls
      = [Call.kvPut "containers/web-1/ContainerID" "0123456789abcdef",
         Call.kvPut "containers/web-1/HostIP" "10.0.0.5"] ∧
    ((insertContainerAttributes (Backend.client (putFailsAfter 1))
        { containerPrefix := "containers" } sampleOrigin).run {}).state.kv
      "containers/web-1/HostIP" = none ∧
    ((insertContainerAttributes (Backend.client (putFailsAfter 1))
        { containerPrefix := "containers" } sampleOrigin).run {}).state.kv
      "containers/web-1/HostPort" = none := by
  decide

/-- Claim C9, amended: for every service and every non-empty
`containerPrefix`, on every backend, the calls container projection issues
are an initial segment of the list that holds, in source order, exactly one
put per non-empty `Origin` field at key
`containerPrefix + "/" + ID + "/" + FieldName` with the value of the field, so
no put is ever issued for an empty field; that list has as many puts as there
are non-empty fields, between 0 and 7.  When none of these puts fails the
projection returns after issuing the whole list; when one fails the
projection panics with its error and the puts after it are not issued. -/
theorem insertContainerAttributes_puts (fails : List Call → Call → Option Error)
    (r : ConsulAdapter) (s : Service) (b : Backend) (_hp : r.containerPrefix ≠ "") :
    ∃ n, ((insertContainerAttributes (Backend.client fails) r s).run b).state.calls
        = b.calls ++ (putsOf (containerEntries r s)).take n ∧
      (∀ x ∈ (putsOf (containerEntries r s)).take n,
        ∃ name value, (name, value) ∈ originFields s.Origin ∧ value ≠ "" ∧
          x = Call.kvPut (r.containerPrefix ++ "/" ++ s.ID ++ "/" ++ name) value) ∧
      (putsSucceed fails b (containerEntries r s) →
        ∃ b1, (insertContainerAttributes (Backend.client fails) r s).run b
            = Outcome.returned () b1 ∧
          b1.calls = b.calls ++ putsOf (containerEntries r s)) ∧
      (∀ pre k v post e, containerEntries r s = pre ++ (k, v) :: post →
        putsSucceed fails b pre → fails (b.calls ++ putsOf pre) (Call.kvPut k v) = some e →
        ∃ b1, (insertContainerAttributes (Backend.client fails) r s).run b
            = Outcome.panicked e b1 ∧
          b1.calls = b.calls ++ putsOf pre ++ [Call.kvPut k v]) ∧
      (putsOf (containerEntries r s)).length = nonEmptyFieldCount s.Origin ∧
      nonEmptyFieldCount s.Origin ≤ 7 ∧
      ∀ key value, Call.kvPut key value ∈ putsOf (containerEntries r s) ↔
        ∃ name, (name, value) ∈ originFields s.Origin ∧ value ≠ "" ∧
          key = r.containerPrefix ++ "/" ++ s.ID ++ "/" ++ name := by
  have hrun := run_insertContainerAttributes_attempt fails r s b
  obtain ⟨n, hn⟩ := attempt_calls fails (putsOf (containerEntries r s)) b
  refine ⟨n, ?_, ?_, ?_, ?_, ?_, nonEmptyFieldCount_le _, mem_putsOf_containerEntries r s⟩
  · rw [hrun, outcomeOf_state, hn]
  · intro x hx
    have hm := List.mem_of_mem_take hx
    obtain ⟨k, v, e⟩ := mem_putsOf x _ hm
    subst e
    obtain ⟨name, h1, h2, h3⟩ := (mem_putsOf_containerEntries r s k v).mp hm
    exact ⟨name, v, h1, h2, by rw [h3]⟩
  · intro hs
    refine ⟨_, ?_, recordAll_calls _ b⟩
    rw [hrun, attempt_of_putsSucceed fails _ b hs]
    rfl
  · intro pre k v post e hsplit hpre hfail
    refine ⟨(b.recordAll (putsOf pre)).step fails (Call.kvPut k v), ?_, ?_⟩
    · rw [hrun, hsplit, attempt_of_first_failure fails k v e post pre b hpre hfail]
      rfl
    · rw [step_calls, recordAll_calls]
  · rw [putsOf, List.length_map, length_containerEntries]

/-- Witness of the amended claim C9: a service with three non-empty `Origin`
fields, on the backend whose calls all succeed, from the empty backend. -/
theorem insertContainerAttributes_puts_witness :
    putsOf (containerEntries { containerPrefix := "containers" } sampleOrigin) =
      [Call.kvPut "containers/web-1/ContainerID" "0123456789abcdef",
       Call.kvPut "containers/web-1/HostIP" "10.0.0.5",
       Call.kvPut "containers/web-1/HostPort" "8080"] ∧
    ((insertContainerAttributes (Backend.client reliable)
        { containerPrefix := "containers" } sampleOrigin).run {}).state.calls
      = putsOf (containerEntries { containerPrefix := "containers" } sampleOrigin) ∧
    ∃ n, ((insertContainerAttributes (Backend.client reliable)
          { containerPrefix := "containers" } sampleOrigin).run {}).state.calls
        = ({} : Backend).calls
          ++ (putsOf (containerEntries { containerPrefix := "containers" } sampleOrigin)).take n ∧
      (∀ x ∈ (putsOf (containerEntries { containerPrefix := "containers" } sampleOrigin)).take n,
        ∃ name value, (name, value) ∈ originFields sampleOrigin.Origin ∧ value ≠ "" ∧
          x = Call.kvPut (({ containerPrefix := "containers" } : ConsulAdapter).containerPrefix
            ++ "/" ++ sampleOrigin.ID ++ "/" ++ name) value) ∧
      (putsSucceed reliable {}
          (containerEntries { containerPrefix := "containers" } sampleOrigin) →
        ∃ b1, (insertContainerAttributes (Backend.client reliable)
              { containerPrefix := "containers" } sampleOrigin).run {}
            = Outcome.returned () b1 ∧
          b1.calls = ({} : Backend).calls
            ++ putsOf (containerEntries { containerPrefix := "containers" } sampleOrigin)) ∧
      (∀ pre k v post e,
        containerEntries { containerPrefix := "containers" } sampleOrigin
          = pre ++ (k, v) :: post →
        putsSucceed reliable {} pre →
        reliable (({} : Backend).calls ++ putsOf pre) (Call.kvPut k v) = some e →
        ∃ b1, (insertContainerAttributes (Backend.client reliable)
              { containerPrefix := "containers" } sampleOrigin).run {}
            = Outcome.panicked e b1 ∧
          b1.calls = ({} : Backend).calls ++ putsOf pre ++ [Call.kvPut k v]) ∧
      (putsOf (containerEntries { containerPrefix := "containers" } sampleOrigin)).length
        = nonEmptyFieldCount sampleOrigin.Origin ∧
      nonEmptyFieldCount sampleOrigin.Origin ≤ 7 ∧
      ∀ key value,
        Call.kvPut key value
          ∈ putsOf (containerEntries { containerPrefix := "containers" } sampleOrigin) ↔
        ∃ name, (name, value) ∈ originFields sampleOrigin.Origin ∧ value ≠ "" ∧
          key = ({ containerPrefix := "containers" } : ConsulAdapter).containerPrefix
            ++ "/" ++ sampleOrigin.ID ++ "/" ++ name :=
  ⟨by decide, by decide,
    insertContainerAttributes_puts reliable { containerPrefix := "containers" } sampleOrigin {}
      (by decide)⟩

end Consul
